import Mathlib

/-!
# The native authentication plugin of iRODS (`plugins/auth/src/native.cpp`)

A shallow embedding of the two steps of the native challenge-response scheme
that build and check digests:

* `native_auth_establish_context` (client side, lines 68-150),
* `native_auth_agent_response` (server side, lines 201-395).

Bytes (`char`) are natural numbers; a `char` buffer is a list of bytes and a
read beyond the end of the list yields the byte `0`.  State that the C++ code
mutates (the `rsComm_t` connection) is passed explicitly, and a thrown
exception is an `Except.error` value returned together with the connection as
it was when the exception left the function.
-/

set_option maxRecDepth 100000

namespace NativeAuth

deriving instance DecidableEq for Except

/-! ## Buffers and C strings -/

/-- A `char` buffer, or the contents of a `std::string`. -/
abbrev Bytes := List Nat

/-- Modelled from the spec: the challenge length (64 bytes); the header that defines
`CHALLENGE_LEN` is not part of the sources at hand. -/
def CHALLENGE_LEN : Nat := 64

/-- Modelled from the spec: the maximal secret length (50 bytes); the header that defines
`MAX_PASSWORD_LEN` is not part of the sources at hand. -/
def MAX_PASSWORD_LEN : Nat := 50

/-- Modelled from the spec: the raw digest length (16 bytes); the header that defines
`RESPONSE_LEN` is not part of the sources at hand. -/
def RESPONSE_LEN : Nat := 16

/-- The value of a buffer read as a C string: the bytes before the first zero byte. -/
def cstr (s : Bytes) : Bytes := s.takeWhile (fun b => b != 0)

/-- The C function `strlen`. -/
def strlen (s : Bytes) : Nat := (cstr s).length

/-- The C test `strcmp(a, b) == 0`. -/
def strcmp_eq (a b : Bytes) : Bool := cstr a == cstr b

/-- A zero-initialised array `char buf[n]{}`. -/
def zeros (n : Nat) : Bytes := List.replicate n 0

/-- Store `data` into `buf` from offset `off` on; the length of `buf` is kept
(no store happens beyond the end of the array). -/
def writeAt (buf : Bytes) (off : Nat) (data : Bytes) : Bytes :=
  buf.take off ++ (data.take (buf.length - off) ++ buf.drop (off + data.length))

/-- The `n` bytes that `strncpy(dst, src, n)` stores: the C string `src` cut
after `n` bytes, or filled up with zero bytes to `n` bytes. -/
def strncpy_bytes (src : Bytes) (n : Nat) : Bytes :=
  (cstr src).take n ++ zeros (n - strlen src)

/-- The C call `strncpy(buf + off, src, n)`. -/
def strncpy (buf : Bytes) (off : Nat) (src : Bytes) (n : Nat) : Bytes :=
  writeAt buf off (strncpy_bytes src n)

/-- The C++ call `s.resize(n)` on a `std::string`: cut after `n` bytes or
filled up with zero bytes. -/
def resize (s : Bytes) (n : Nat) : Bytes := s.take n ++ zeros (n - s.length)

/-- The C++ value `s.c_str()` read as a C string by `strncpy`. -/
def c_str (s : Bytes) : Bytes := s ++ [0]

/-! ## The scrub loop (lines 133-137 and 292-296) -/

/-- One round of the loop body: `if (digest[i] == '\0') { digest[i]++; }`. -/
def scrub_step (digest : Bytes) (i : Nat) : Bytes :=
  if digest.getD i 0 = 0 then digest.set i ((digest.getD i 0 + 1) % 256) else digest

/-- The loop `for (int i = 0; i < RESPONSE_LEN; ++i) { ... }` over the digest array. -/
def scrub (digest : Bytes) : Bytes :=
  (List.range RESPONSE_LEN).foldl scrub_step digest

/-- The store of the hash bytes (`MD5_Final`, `obfMakeOneWayHash`) into the
zero-initialised array `char digest[RESPONSE_LEN + 2]{}`.  The hash function
itself is a parameter: it yields `RESPONSE_LEN` bytes, each stored as a `char`. -/
def store_hash (hash : Bytes → Bytes) (input : Bytes) : Bytes :=
  writeAt (zeros (RESPONSE_LEN + 2)) 0 (((hash input).take RESPONSE_LEN).map (fun b => b % 256))

/-! ## Messages -/

/-- A value of a message field: a string, or a value of another JSON type. -/
inductive JsonValue where
  | string (s : Bytes)
  | other (n : Nat)
  deriving DecidableEq, Repr

/-- A message: an object of named fields. -/
abbrev Json := List (String × JsonValue)

/-- The lookup `req.at(key)`, for a key that may be absent. -/
def Json.at? (j : Json) (key : String) : Option JsonValue :=
  (j.find? (fun kv => kv.1 == key)).map (fun kv => kv.2)

/-- Whether the message has the field `key`. -/
def Json.contains (j : Json) (key : String) : Bool := (j.at? key).isSome

/-- The C++ expression `req.at(key).get<std::string>()`; `none` when the field is
no string (the library throws a type error). -/
def Json.get_string (j : Json) (key : String) : Option Bytes :=
  match j.at? key with
  | some (JsonValue.string s) => some s
  | _ => none

/-- The assignment `resp[key] = value`. -/
def Json.set (j : Json) (key : String) (value : JsonValue) : Json :=
  if j.contains key then j.map (fun kv => if kv.1 == key then (key, value) else kv)
  else j ++ [(key, value)]

/-- The bytes of a string literal of the source. -/
def lit (s : String) : Bytes := s.toList.map Char.toNat

/-- Modelled from the spec: the name of the distinguished field naming the next operation
(`irods_auth::next_operation`, declared in the framework header, which is not at hand). -/
def next_operation : String := "next_operation"

/-- Modelled from the spec: the terminal sentinel "flow complete" (`irods_auth::flow_complete`,
declared in the framework header, which is not at hand). -/
def flow_complete : JsonValue := JsonValue.string (lit "authentication_flow_complete")

/-- Modelled from the spec: the operation identifier of the agent-response step
(`AUTH_AGENT_AUTH_RESPONSE`, declared in a header that is not at hand). -/
def AUTH_AGENT_AUTH_RESPONSE : JsonValue := JsonValue.string (lit "auth_agent_auth_response")

/-- Modelled from the spec: the operation identifier of the client-response step
(`AUTH_CLIENT_AUTH_RESPONSE`, declared in a header that is not at hand). -/
def AUTH_CLIENT_AUTH_RESPONSE : JsonValue := JsonValue.string (lit "auth_client_auth_response")

/-! ## Errors -/

/-- The exceptions that leave the two steps, one constructor for each `THROW`. -/
inductive AuthError where
  /-- Thrown by `throw_if_request_message_is_missing_key`. -/
  | missing_key
  /-- Thrown by `get<std::string>()` on a field that is no string. -/
  | json_type_error
  /-- Line 213: "Connecting to rcat host failed." -/
  | rcat_connect_failed (status : Int)
  /-- Line 229: "base64 decoding of digest failed." -/
  | base64_decode_failed
  /-- Line 143: "base64 encoding of digest failed." -/
  | base64_encode_failed
  /-- Line 252: "rcAuthCheck failed." -/
  | auth_check_failed (status : Int)
  /-- Line 261. -/
  | REMOTE_SERVER_AUTH_NOT_PROVIDED
  /-- Line 266. -/
  | REMOTE_SERVER_AUTH_EMPTY
  /-- Line 280. -/
  | REMOTE_SERVER_SID_NOT_DEFINED
  /-- Line 302. -/
  | REMOTE_SERVER_AUTHENTICATION_FAILURE
  /-- Lines 312 and 340: "getLocalZoneInfo failed." -/
  | get_local_zone_info_failed (status : Int)
  /-- Thrown inside `throw_on_insufficient_privilege_for_proxy_user`. -/
  | insufficient_privilege (code : Int)
  deriving DecidableEq, Repr

/-! ## Base64 transcoding -/

/-- Modelled from the spec: the base64 alphabet of the "standard padding-aware base64
transcoding" (`base64.cpp` is not part of the sources at hand): the character of a
6-bit value. -/
def b64_char (v : Nat) : Nat :=
  if v < 26 then 65 + v
  else if v < 52 then 97 + (v - 26)
  else if v < 62 then 48 + (v - 52)
  else if v = 62 then 43
  else 47

/-- Modelled from the spec: the base64 alphabet, read backwards: the 6-bit value of a
character, `none` for a character outside the alphabet (`base64.cpp` is not at hand). -/
def b64_value (c : Nat) : Option Nat :=
  if 65 ≤ c ∧ c ≤ 90 then some (c - 65)
  else if 97 ≤ c ∧ c ≤ 122 then some (c - 97 + 26)
  else if 48 ≤ c ∧ c ≤ 57 then some (c - 48 + 52)
  else if c = 43 then some 62
  else if c = 47 then some 63
  else none

/-- Modelled from the spec: standard base64 encoding with `=` padding, three bytes to four
characters (`base64_encode` of `base64.cpp`, which is not at hand). -/
def encode_groups : Bytes → Bytes
  | [] => []
  | [a] => [b64_char (a / 4), b64_char (a % 4 * 16), 61, 61]
  | [a, b] => [b64_char (a / 4), b64_char (a % 4 * 16 + b / 16), b64_char (b % 16 * 4), 61]
  | a :: b :: c :: rest =>
    b64_char (a / 4) :: b64_char (a % 4 * 16 + b / 16) :: b64_char (b % 16 * 4 + c / 64)
      :: b64_char (c % 64) :: encode_groups rest

/-- Modelled from the spec: `base64_encode(in, inlen, out, &outlen)` of `base64.cpp` (not at
hand): the padded base64 text of the input, or an error when it does not fit into the
`outlen` bytes of the output array. -/
def base64_encode (input : Bytes) (outlen : Nat) : Except Int Bytes :=
  if (encode_groups input).length ≤ outlen then Except.ok (encode_groups input)
  else Except.error (-1)

/-- Modelled from the spec: standard padding-aware base64 decoding, four characters to three
bytes; `=` padding is accepted in the last group only; `none` for a text that is not
well-formed base64 (`base64.cpp` is not part of the sources at hand). -/
def decode_groups : Bytes → Option Bytes
  | [] => some []
  | [a, b, c, d] =>
    if c = 61 ∧ d = 61 then
      match b64_value a, b64_value b with
      | some x, some y => some [x * 4 + y / 16]
      | _, _ => none
    else if d = 61 then
      match b64_value a, b64_value b, b64_value c with
      | some x, some y, some z => some [x * 4 + y / 16, y % 16 * 16 + z / 4]
      | _, _, _ => none
    else
      match b64_value a, b64_value b, b64_value c, b64_value d with
      | some x, some y, some z, some w =>
        some [x * 4 + y / 16, y % 16 * 16 + z / 4, z % 4 * 64 + w]
      | _, _, _, _ => none
  | a :: b :: c :: d :: rest =>
    match b64_value a, b64_value b, b64_value c, b64_value d, decode_groups rest with
    | some x, some y, some z, some w, some bytes =>
      some ((x * 4 + y / 16) :: (y % 16 * 16 + z / 4) :: (z % 4 * 64 + w) :: bytes)
    | _, _, _, _, _ => none
  | _ => none

/-- Modelled from the spec: `base64_decode(in, inlen, out, &outlen)` of `base64.cpp` (not at
hand): "standard padding-aware base64 transcoding; decode fails with a decoding error if
input length is inconsistent with the expected decoded size".  The expected decoded
size is the `outlen` the caller passes in. -/
def base64_decode (input : Bytes) (outlen : Nat) : Except Int Bytes :=
  match decode_groups input with
  | none => Except.error (-1)
  | some bytes => if bytes.length = outlen then Except.ok bytes else Except.error (-1)

/-! ## The connection and the collaborators of the server step -/

/-- Modelled from the spec: "PrivilegeLevel: an enumerated value {none, local-user,
local-privileged-user, remote-user, remote-privileged-user}"; the header that defines
the levels (`NO_USER_AUTH`, ...) is not part of the sources at hand. -/
inductive PrivLevel where
  | NO_USER_AUTH
  | REMOTE_USER_AUTH
  | LOCAL_USER_AUTH
  | REMOTE_PRIV_USER_AUTH
  | LOCAL_PRIV_USER_AUTH
  deriving DecidableEq, Repr

open PrivLevel

/-- The field `authInfo` of a user of the connection. -/
structure AuthInfo where
  authFlag : PrivLevel
  deriving DecidableEq, Repr

/-- A user of the connection (`comm.proxyUser`, `comm.clientUser`); `userName` and
`rodsZone` are `char` arrays that hold C strings. -/
structure UserInfo where
  userName : Bytes
  rodsZone : Bytes
  authInfo : AuthInfo
  deriving DecidableEq, Repr

/-- The part of the server connection `rsComm_t` that the step reads and writes. -/
structure RsComm where
  proxyUser : UserInfo
  clientUser : UserInfo
  deriving DecidableEq, Repr

/-- The part of `rodsServerHost_t` that the step reads. -/
structure RodsServerHost where
  localFlag : Int
  rcatEnabled : Int
  deriving DecidableEq, Repr

/-- The input of the authentication check (`authCheckInp_t`). -/
structure AuthCheckInp where
  challenge : Bytes
  response : Bytes
  username : Bytes
  deriving DecidableEq, Repr

/-- The output of the authentication check (`authCheckOut_t`); `serverResponse` is
`none` for a null pointer, and else the bytes the pointer refers to, the terminating
zero byte of the C string being the first byte beyond the end of the list. -/
structure AuthCheckOut where
  privLevel : PrivLevel
  clientPrivLevel : PrivLevel
  serverResponse : Option Bytes
  deriving DecidableEq, Repr

/-- The calls to collaborators that have an effect outside the step, in the order in
which the step makes them. -/
inductive Event where
  | getAndConnRcatHostNoLogin (zone : Bytes)
  | rsAuthCheck (inp : AuthCheckInp)
  | rcAuthCheck (inp : AuthCheckInp)
  | rcDisconnect
  deriving DecidableEq, Repr

/-- Whether an event is an authentication check. -/
def Event.isAuthCheck : Event → Bool
  | Event.rsAuthCheck _ => true
  | Event.rcAuthCheck _ => true
  | _ => false

/-- The collaborators of `native_auth_agent_response`, none of which is part of the
sources at hand, and the constants of headers that are not at hand.  The
collaborators that receive the connection are taken not to write its identity
fields. -/
structure Env where
  /-- The constant `NAME_LEN`. -/
  NAME_LEN : Nat
  /-- The constant `LOCAL_HOST`. -/
  LOCAL_HOST : Int
  /-- The constant `REMOTE_ICAT`. -/
  REMOTE_ICAT : Int
  /-- The status and the host that `getAndConnRcatHostNoLogin` yields for a zone. -/
  getAndConnRcatHostNoLogin : RsComm → Bytes → Int × RodsServerHost
  /-- The challenge of the session, `_rsAuthRequestGetChallenge()`. -/
  challenge : Bytes
  /-- The local authentication check: status and output (`none`: null pointer). -/
  rsAuthCheck : RsComm → AuthCheckInp → Int × Option AuthCheckOut
  /-- The delegated authentication check: status and output (`none`: null pointer). -/
  rcAuthCheck : AuthCheckInp → Int × Option AuthCheckOut
  /-- The bytes that `getZoneServerId` stores into `serverId` for a zone. -/
  getZoneServerId : Bytes → Bytes
  /-- The one-way hash behind `obfMakeOneWayHash(HASH_TYPE_DEFAULT, ...)`. -/
  hash : Bytes → Bytes
  /-- The status of `getLocalZoneInfo` and the `zoneName` of the zone it yields; the
  zone list does not change during the step, so that both calls (lines 310 and 338)
  yield the same. -/
  getLocalZoneInfo : Int × Bytes
  /-- The guard `throw_on_insufficient_privilege_for_proxy_user`: `some code` when it
  throws. -/
  throw_on_insufficient_privilege_for_proxy_user : RsComm → PrivLevel → Option Int

/-- What a run of the server step leaves behind: the returned message or the
exception, the connection, and the calls made. -/
structure Outcome where
  result : Except AuthError Json
  comm : RsComm
  trace : List Event
  deriving DecidableEq

/-! ## `native_auth_agent_response` (lines 201-395) -/

/-- Lines 203-253: the required fields, the catalog connection, the decoding of the
digest and the authentication check.  Yields the host, the zone name and the
output of the check, together with the calls made. -/
def auth_phase (E : Env) (comm : RsComm) (req : Json) :
    Except AuthError (RodsServerHost × Bytes × AuthCheckOut) × List Event :=
  if !(req.contains "digest" && req.contains "zone_name" && req.contains "user_name") then
    (Except.error AuthError.missing_key, [])
  else
  match req.get_string "zone_name" with
  | none => (Except.error AuthError.json_type_error, [])
  | some zone_name =>
  let conn := E.getAndConnRcatHostNoLogin comm (c_str zone_name)
  let rodsServerHost := conn.2
  let tr := [Event.getAndConnRcatHostNoLogin (c_str zone_name)]
  if conn.1 < 0 then (Except.error (AuthError.rcat_connect_failed conn.1), tr)
  else
  match req.get_string "digest" with
  | none => (Except.error AuthError.json_type_error, tr)
  | some to_decode =>
  match base64_decode to_decode RESPONSE_LEN with
  | Except.error _ => (Except.error AuthError.base64_decode_failed, tr)
  | Except.ok decoded =>
  let response := writeAt (zeros (RESPONSE_LEN + 1)) 0 decoded
  match req.get_string "user_name" with
  | none => (Except.error AuthError.json_type_error, tr)
  | some user_name =>
  let authCheckInp : AuthCheckInp :=
    { challenge := E.challenge, response := response, username := user_name ++ lit "#" ++ zone_name }
  let check : (Int × Option AuthCheckOut) × List Event :=
    if E.LOCAL_HOST = rodsServerHost.localFlag then
      (E.rsAuthCheck comm authCheckInp, tr ++ [Event.rsAuthCheck authCheckInp])
    else
      (E.rcAuthCheck authCheckInp, tr ++ [Event.rcAuthCheck authCheckInp, Event.rcDisconnect])
  match check.1.2 with
  | none => (Except.error (AuthError.auth_check_failed check.1.1), check.2)
  | some authCheckOut =>
    if check.1.1 < 0 then (Except.error (AuthError.auth_check_failed check.1.1), check.2)
    else (Except.ok (rodsServerHost, zone_name, authCheckOut), check.2)

/-- Lines 269-290: the array `md5Buf` after the two `strncpy` calls, for the bytes
that `getZoneServerId` has stored into `serverId`. -/
def agent_md5Buf (challenge serverId : Bytes) : Bytes :=
  strncpy (strncpy (zeros (CHALLENGE_LEN + MAX_PASSWORD_LEN + 2)) 0 challenge CHALLENGE_LEN)
    CHALLENGE_LEN serverId (strlen serverId)

/-- Lines 272-276: the array `serverId` after the call of `getZoneServerId`. -/
def agent_serverId (E : Env) (zone_name : Bytes) : Bytes :=
  let userZone := strncpy (zeros (E.NAME_LEN + 2)) 0 (c_str zone_name) (E.NAME_LEN + 1)
  writeAt (zeros (MAX_PASSWORD_LEN + 2)) 0 (E.getZoneServerId userZone)

/-- Lines 286-290: the bytes passed to the hash, the first
`CHALLENGE_LEN + MAX_PASSWORD_LEN` bytes of `md5Buf`. -/
def agent_hash_input (challenge serverId : Bytes) : Bytes :=
  (agent_md5Buf challenge serverId).take (CHALLENGE_LEN + MAX_PASSWORD_LEN)

/-- Lines 285-296: the array `digest` after the hash and the scrub loop. -/
def agent_digest (E : Env) (zone_name : Bytes) : Bytes :=
  scrub (store_hash E.hash (agent_hash_input E.challenge (agent_serverId E zone_name)))

/-- Lines 298-304: the loop that compares `RESPONSE_LEN` bytes; `true` when no pair
of bytes differs (the loop ends without a throw). -/
def compare_loop (cp digest : Bytes) : Bool :=
  (List.range RESPONSE_LEN).all (fun i => cp.getD i 0 == digest.getD i 0)

/-- Lines 259-304: the body of `if (LOCAL_HOST != rodsServerHost->localFlag)`. -/
def cross_zone_check (E : Env) (zone_name : Bytes) (authCheckOut : AuthCheckOut) :
    Except AuthError Unit :=
  match authCheckOut.serverResponse with
  | none => Except.error AuthError.REMOTE_SERVER_AUTH_NOT_PROVIDED
  | some serverResponse =>
    if serverResponse.getD 0 0 = 0 then Except.error AuthError.REMOTE_SERVER_AUTH_EMPTY
    else if (agent_serverId E zone_name).getD 0 0 = 0 then
      Except.error AuthError.REMOTE_SERVER_SID_NOT_DEFINED
    else if compare_loop serverResponse (agent_digest E zone_name) then Except.ok ()
    else Except.error AuthError.REMOTE_SERVER_AUTHENTICATION_FAILURE

/-- Lines 307-317: "Set the clientUser zone if it is null."  The array
`comm.clientUser.rodsZone` has `NAME_LEN` bytes, all of which `strncpy` stores. -/
def set_client_zone (E : Env) (comm : RsComm) : Except AuthError RsComm :=
  if comm.clientUser.rodsZone.getD 0 0 = 0 then
    if E.getLocalZoneInfo.1 < 0 then
      Except.error (AuthError.get_local_zone_info_failed E.getLocalZoneInfo.1)
    else
      let rodsZone := strncpy_bytes E.getLocalZoneInfo.2 E.NAME_LEN
      Except.ok { comm with clientUser := { comm.clientUser with rodsZone := rodsZone } }
  else Except.ok comm

/-- Lines 325-330: the proxy side of the remapping. -/
def remap_proxy (privLevel : PrivLevel) : PrivLevel :=
  if privLevel = LOCAL_PRIV_USER_AUTH then REMOTE_PRIV_USER_AUTH
  else if privLevel = LOCAL_USER_AUTH then REMOTE_USER_AUTH
  else privLevel

/-- Lines 343-360: the client side of the remapping, for a client that is not the
proxy; `local_zone` tells whether `strcmp(tmpZoneInfo->zoneName, comm.clientUser.rodsZone)`
is zero. -/
def remap_client (local_zone : Bool) (clientPrivLevel : PrivLevel) : PrivLevel :=
  if local_zone then
    if REMOTE_PRIV_USER_AUTH = clientPrivLevel then LOCAL_PRIV_USER_AUTH
    else if REMOTE_USER_AUTH = clientPrivLevel then LOCAL_USER_AUTH
    else clientPrivLevel
  else
    if LOCAL_PRIV_USER_AUTH = clientPrivLevel then REMOTE_USER_AUTH
    else if LOCAL_USER_AUTH = clientPrivLevel then REMOTE_USER_AUTH
    else clientPrivLevel

/-- Lines 319-366: the two privilege levels of `authCheckOut` after the remapping. -/
def adjust_priv (E : Env) (rodsServerHost : RodsServerHost) (comm : RsComm)
    (authCheckOut : AuthCheckOut) : Except AuthError AuthCheckOut :=
  if rodsServerHost.rcatEnabled = E.REMOTE_ICAT then
    let out1 := { authCheckOut with privLevel := remap_proxy authCheckOut.privLevel }
    if strcmp_eq comm.proxyUser.userName comm.clientUser.userName then
      Except.ok { out1 with clientPrivLevel := out1.privLevel }
    else if E.getLocalZoneInfo.1 < 0 then
      Except.error (AuthError.get_local_zone_info_failed E.getLocalZoneInfo.1)
    else
      let local_zone := strcmp_eq E.getLocalZoneInfo.2 comm.clientUser.rodsZone
      Except.ok { out1 with clientPrivLevel := remap_client local_zone out1.clientPrivLevel }
  else if strcmp_eq comm.proxyUser.userName comm.clientUser.userName then
    Except.ok { authCheckOut with clientPrivLevel := authCheckOut.privLevel }
  else Except.ok authCheckOut

/-- Lines 378-385: the stores into the two `authFlag` fields. -/
def set_auth_flags (comm : RsComm) (authCheckOut : AuthCheckOut) : RsComm :=
  if !(strcmp_eq comm.proxyUser.userName comm.clientUser.userName) then
    { proxyUser := { comm.proxyUser with authInfo := { authFlag := authCheckOut.privLevel } },
      clientUser := { comm.clientUser with authInfo := { authFlag := authCheckOut.clientPrivLevel } } }
  else
    { proxyUser := { comm.proxyUser with authInfo := { authFlag := authCheckOut.privLevel } },
      clientUser := { comm.clientUser with authInfo := { authFlag := authCheckOut.privLevel } } }

/-- Lines 307-394: the client zone, the remapping, the guard on the proxy privilege,
the stores into the `authFlag` fields and the return of `resp`. -/
def identity_phase (E : Env) (rodsServerHost : RodsServerHost) (comm : RsComm)
    (authCheckOut : AuthCheckOut) (resp : Json) (tr : List Event) : Outcome :=
  match set_client_zone E comm with
  | Except.error e => { result := Except.error e, comm := comm, trace := tr }
  | Except.ok comm1 =>
    match adjust_priv E rodsServerHost comm1 authCheckOut with
    | Except.error e => { result := Except.error e, comm := comm1, trace := tr }
    | Except.ok out1 =>
      match E.throw_on_insufficient_privilege_for_proxy_user comm1 out1.privLevel with
      | some code =>
        { result := Except.error (AuthError.insufficient_privilege code), comm := comm1, trace := tr }
      | none => { result := Except.ok resp, comm := set_auth_flags comm1 out1, trace := tr }

/-- The server step `native_auth_agent_response(comm, req)`.  The returned message is
`resp`, the copy of `req` made in line 255, to which no field is assigned. -/
def native_auth_agent_response (E : Env) (comm : RsComm) (req : Json) : Outcome :=
  match auth_phase E comm req with
  | (Except.error e, tr) => { result := Except.error e, comm := comm, trace := tr }
  | (Except.ok (rodsServerHost, zone_name, authCheckOut), tr) =>
    let resp := req
    if E.LOCAL_HOST ≠ rodsServerHost.localFlag then
      match cross_zone_check E zone_name authCheckOut with
      | Except.error e => { result := Except.error e, comm := comm, trace := tr }
      | Except.ok _ => identity_phase E rodsServerHost comm authCheckOut resp tr
    else identity_phase E rodsServerHost comm authCheckOut resp tr

/-! ## `native_auth_establish_context` (lines 68-150) -/

/-- The calls of the client step that reach outside of it. -/
inductive ClientEvent where
  | setSessionSignatureClientside (md5_buf : Bytes)
  | obfGetPw
  | prompt
  deriving DecidableEq, Repr

/-- The collaborators of `native_auth_establish_context`, none of which is part of
the sources at hand. -/
structure ClientEnv where
  /-- The constant `ANONYMOUS_USER`. -/
  ANONYMOUS_USER : Bytes
  /-- The value `obfGetPw` returns and the bytes it stores from `md5_buf + CHALLENGE_LEN` on. -/
  obfGetPw : Int × Bytes
  /-- The line that `getline(std::cin, password)` reads at the prompt. -/
  password : Bytes
  /-- The hash behind `MD5_Init`, `MD5_Update`, `MD5_Final`. -/
  hash : Bytes → Bytes

/-- Lines 89-96: whether the password is to be prompted for. -/
def need_password (E : ClientEnv) (user_name : Bytes) : Bool :=
  if user_name = E.ANONYMOUS_USER then false else decide (E.obfGetPw.1 ≠ 0)

/-- Lines 76-121: the array `md5_buf` when the hash is computed. -/
def client_md5_buf (E : ClientEnv) (request_result user_name : Bytes) : Bytes :=
  let request_result := resize request_result CHALLENGE_LEN
  let md5_buf := strncpy (zeros (CHALLENGE_LEN + MAX_PASSWORD_LEN + 2)) 0
    (c_str request_result) CHALLENGE_LEN
  let md5_buf :=
    if user_name = E.ANONYMOUS_USER then md5_buf.set (CHALLENGE_LEN + 1) 0
    else writeAt md5_buf CHALLENGE_LEN E.obfGetPw.2
  if need_password E user_name then
    strncpy md5_buf CHALLENGE_LEN (c_str E.password) MAX_PASSWORD_LEN
  else md5_buf

/-- Lines 124-126: the bytes passed to `MD5_Update`, the first
`CHALLENGE_LEN + MAX_PASSWORD_LEN` bytes of `md5_buf`. -/
def client_hash_input (E : ClientEnv) (request_result user_name : Bytes) : Bytes :=
  (client_md5_buf E request_result user_name).take (CHALLENGE_LEN + MAX_PASSWORD_LEN)

/-- Lines 83-99: the calls made up to the hash. -/
def client_trace (E : ClientEnv) (request_result user_name : Bytes) : List ClientEvent :=
  let request_result := resize request_result CHALLENGE_LEN
  let md5_buf := strncpy (zeros (CHALLENGE_LEN + MAX_PASSWORD_LEN + 2)) 0
    (c_str request_result) CHALLENGE_LEN
  [ClientEvent.setSessionSignatureClientside md5_buf]
    ++ (if user_name = E.ANONYMOUS_USER then [] else [ClientEvent.obfGetPw])
    ++ (if need_password E user_name then [ClientEvent.prompt] else [])

/-- The client step `native_auth_establish_context(comm, req)`: the returned message
or the exception, and the calls made. -/
def native_auth_establish_context (E : ClientEnv) (req : Json) :
    Except AuthError Json × List ClientEvent :=
  if !(req.contains "user_name" && req.contains "zone_name" && req.contains "request_result") then
    (Except.error AuthError.missing_key, [])
  else
  let resp := req
  match req.get_string "request_result" with
  | none => (Except.error AuthError.json_type_error, [])
  | some request_result =>
  match req.get_string "user_name" with
  | none =>
    (Except.error AuthError.json_type_error,
      [ClientEvent.setSessionSignatureClientside
        (strncpy (zeros (CHALLENGE_LEN + MAX_PASSWORD_LEN + 2)) 0
          (c_str (resize request_result CHALLENGE_LEN)) CHALLENGE_LEN)])
  | some user_name =>
  let digest := scrub (store_hash E.hash (client_hash_input E request_result user_name))
  match base64_encode (digest.take RESPONSE_LEN) (RESPONSE_LEN * 2) with
  | Except.error _ =>
    (Except.error AuthError.base64_encode_failed, client_trace E request_result user_name)
  | Except.ok out =>
    (Except.ok ((resp.set "digest" (JsonValue.string out)).set next_operation AUTH_CLIENT_AUTH_RESPONSE),
      client_trace E request_result user_name)

/-! ## Example runs -/

/-- An example connection: the proxy `rods` acts for the client `client`, whose zone
array holds `zone`; no privilege level is set. -/
def demo_comm_of (client zone : Bytes) : RsComm :=
  { proxyUser := { userName := lit "rods", rodsZone := lit "tempZone", authInfo := ⟨NO_USER_AUTH⟩ },
    clientUser := { userName := client, rodsZone := zone, authInfo := ⟨NO_USER_AUTH⟩ } }

/-- An example connection: the proxy `rods` acts for the client `alice`, whose zone is
not set (the array holds zero bytes). -/
def demo_comm : RsComm := demo_comm_of (lit "alice") (zeros 64)

/-- An example request with the digest text `digest`, as `native_auth_client_response`
sends it (line 170). -/
def demo_req_of (digest : Bytes) : Json :=
  [("digest", JsonValue.string digest),
   ("user_name", JsonValue.string (lit "rods")),
   ("zone_name", JsonValue.string (lit "otherZone")),
   (next_operation, AUTH_AGENT_AUTH_RESPONSE)]

/-- An example request: the digest is the base64 text of sixteen bytes `1`. -/
def demo_req : Json := demo_req_of (lit "AQEBAQEBAQEBAQEBAQEBAQ==")

/-- An example environment: `LOCAL_HOST` is 1 and `REMOTE_ICAT` is 2, the catalog
connection succeeds and yields `host`, both authentication checks yield `check`, the
zone has the server ID `serverId`, the local zone is `tempZone`, and the guard on the
proxy privilege yields `guard`. -/
def demo_env (host : RodsServerHost) (check : Int × Option AuthCheckOut) (serverId : Bytes)
    (hash : Bytes → Bytes) (guard : Option Int) : Env :=
  { NAME_LEN := 64
    LOCAL_HOST := 1
    REMOTE_ICAT := 2
    getAndConnRcatHostNoLogin := fun _ _ => (0, host)
    challenge := lit "0123456789abcdef0123456789abcdef0123456789abcdef0123456789abcdef"
    rsAuthCheck := fun _ _ => check
    rcAuthCheck := fun _ => check
    getZoneServerId := fun _ => serverId
    hash := hash
    getLocalZoneInfo := (0, lit "tempZone")
    throw_on_insufficient_privilege_for_proxy_user := fun _ _ => guard }

/-- An example hash: the sum of the input bytes in every position but the first, which
is zero. -/
def demo_hash (input : Bytes) : Bytes := 0 :: List.replicate 15 (input.sum % 256)

/-- An example cross-zone run: the host is not local and is a remote catalog, the
delegated check succeeds with the levels `privLevel` and `clientPrivLevel` and the
server response `serverResponse`, the zone has the server ID `sid`, the hash is
`demo_hash` and the guard on the proxy privilege lets the proxy pass. -/
def demo_cross_zone_env (privLevel clientPrivLevel : PrivLevel) (serverResponse : Option Bytes) :
    Env :=
  demo_env { localFlag := 0, rcatEnabled := 2 }
    (0, some { privLevel := privLevel, clientPrivLevel := clientPrivLevel,
               serverResponse := serverResponse })
    (lit "sid") demo_hash none

/-- An example client environment: no stored credential can be read (`obfGetPw` fails
and stores the empty string), and the operator types `secret123` at the prompt. -/
def demo_client_env : ClientEnv :=
  { ANONYMOUS_USER := lit "anonymous"
    obfGetPw := (1, [0])
    password := lit "secret123"
    hash := demo_hash }

/-- An example run on the local host, which is no remote catalog: the local check
succeeds with the levels `privLevel` and `clientPrivLevel`, and the guard on the proxy
privilege yields `guard`. -/
def demo_local_env (privLevel clientPrivLevel : PrivLevel) (guard : Option Int) : Env :=
  demo_env { localFlag := 1, rcatEnabled := 1 }
    (0, some { privLevel := privLevel, clientPrivLevel := clientPrivLevel, serverResponse := none })
    (lit "sid") demo_hash guard

/-- An example request to the client step: the user `user_name` of the zone `tempZone`
has received the challenge `request_result`. -/
def demo_client_req (user_name request_result : Bytes) : Json :=
  [("user_name", JsonValue.string user_name),
   ("zone_name", JsonValue.string (lit "tempZone")),
   ("request_result", JsonValue.string request_result),
   (next_operation, JsonValue.string (lit "auth_establish_context"))]

/-! ## Lemmas on the scrub loop -/

theorem scrub_step_length (d : Bytes) (i : Nat) : (scrub_step d i).length = d.length := by
  unfold scrub_step
  split <;> simp

theorem scrub_fold_length (n : Nat) (d : Bytes) :
    ((List.range n).foldl scrub_step d).length = d.length := by
  induction n with
  | zero => simp
  | succ n ih => rw [List.range_succ, List.foldl_append]; simp [scrub_step_length, ih]

theorem scrub_step_getD (d : Bytes) (i j : Nat) (hi : i < d.length) :
    (scrub_step d i).getD j 0 =
      if j = i then (if d.getD i 0 = 0 then 1 else d.getD i 0) else d.getD j 0 := by
  unfold scrub_step
  by_cases h0 : d.getD i 0 = 0
  · simp only [h0, if_true]
    by_cases hj : j = i
    · subst hj; simp [List.getD_eq_getElem?_getD, List.getElem?_set, hi]
    · simp [List.getD_eq_getElem?_getD, List.getElem?_set, hj, Ne.symm hj]
  · simp only [h0, if_false]
    by_cases hj : j = i
    · subst hj; simp
    · simp [hj]

theorem scrub_fold_getD (n : Nat) (d : Bytes) (hn : n ≤ d.length) (j : Nat) :
    ((List.range n).foldl scrub_step d).getD j 0 =
      if j < n then (if d.getD j 0 = 0 then 1 else d.getD j 0) else d.getD j 0 := by
  induction n generalizing j with
  | zero => simp
  | succ n ih =>
    have hn' : n ≤ d.length := Nat.le_of_succ_le hn
    have hlen := scrub_fold_length n d
    rw [List.range_succ, List.foldl_append]
    simp only [List.foldl_cons, List.foldl_nil]
    rw [scrub_step_getD _ _ _ (by omega)]
    rw [ih hn' j, ih hn' n]
    by_cases hj : j = n
    · subst hj; simp
    · have : (j < n + 1) = (j < n) := by
        apply propext; omega
      simp [hj, this]

theorem scrub_getD (d : Bytes) (h : RESPONSE_LEN ≤ d.length) (j : Nat) :
    (scrub d).getD j 0 =
      if j < RESPONSE_LEN then (if d.getD j 0 = 0 then 1 else d.getD j 0) else d.getD j 0 :=
  scrub_fold_getD RESPONSE_LEN d h j

theorem scrub_length (d : Bytes) : (scrub d).length = d.length :=
  scrub_fold_length RESPONSE_LEN d

theorem ext_getD {a b : Bytes} (hl : a.length = b.length)
    (h : ∀ j, j < a.length → a.getD j 0 = b.getD j 0) : a = b := by
  apply List.ext_getElem hl
  intro n h1 h2
  have := h n h1
  simpa [List.getD_eq_getElem?_getD, List.getElem?_eq_getElem h1, List.getElem?_eq_getElem h2]
    using this

theorem getD_append_left (a t : Bytes) (j : Nat) (hj : j < a.length) :
    (a ++ t).getD j 0 = a.getD j 0 := by
  simp [List.getD_eq_getElem?_getD, List.getElem?_append_left hj]

theorem getD_append_right (a t : Bytes) (j : Nat) (hj : a.length ≤ j) :
    (a ++ t).getD j 0 = t.getD (j - a.length) 0 := by
  simp [List.getD_eq_getElem?_getD, List.getElem?_append_right hj]

theorem scrub_append (d t : Bytes) (h : d.length = RESPONSE_LEN) :
    scrub (d ++ t) = scrub d ++ t := by
  apply ext_getD
  · simp [scrub_length]
  · intro j _
    have h1 : RESPONSE_LEN ≤ (d ++ t).length := by simp [h]
    rw [scrub_getD _ h1]
    by_cases hj : j < RESPONSE_LEN
    · rw [getD_append_left (scrub d) t j (by rw [scrub_length]; omega),
        scrub_getD d (le_of_eq h.symm), getD_append_left d t j (by omega)]
    · rw [getD_append_right (scrub d) t j (by rw [scrub_length]; omega),
        getD_append_right d t j (by omega), scrub_length]
      simp [hj]

theorem scrub_ne_zero (d : Bytes) (h : RESPONSE_LEN ≤ d.length) (j : Nat)
    (hj : j < RESPONSE_LEN) : (scrub d).getD j 0 ≠ 0 := by
  rw [scrub_getD d h, if_pos hj]
  split <;> simp_all

theorem scrub_idem (d : Bytes) (h : RESPONSE_LEN ≤ d.length) : scrub (scrub d) = scrub d := by
  apply ext_getD
  · simp [scrub_length]
  · intro j _
    rw [scrub_getD (scrub d) (by rw [scrub_length]; exact h)]
    by_cases hj : j < RESPONSE_LEN
    · rw [if_pos hj, if_neg (scrub_ne_zero d h j hj)]
    · rw [if_neg hj]

/-! ## Lemmas on buffers -/

theorem writeAt_length (buf : Bytes) (off : Nat) (data : Bytes) (h : off ≤ buf.length) :
    (writeAt buf off data).length = buf.length := by
  simp only [writeAt, List.length_append, List.length_take, List.length_drop]
  omega

theorem zeros_length (n : Nat) : (zeros n).length = n := by simp [zeros]

theorem store_hash_length (hash : Bytes → Bytes) (input : Bytes) :
    (store_hash hash input).length = RESPONSE_LEN + 2 := by
  rw [store_hash, writeAt_length _ _ _ (Nat.zero_le _), zeros_length]

theorem agent_digest_length (E : Env) (zone_name : Bytes) :
    (agent_digest E zone_name).length = RESPONSE_LEN + 2 := by
  rw [agent_digest, scrub_length, store_hash_length]

theorem agent_digest_ne_zero (E : Env) (zone_name : Bytes) (i : Nat) (hi : i < RESPONSE_LEN) :
    (agent_digest E zone_name).getD i 0 ≠ 0 := by
  rw [agent_digest]
  exact scrub_ne_zero _ (by rw [store_hash_length]; omega) i hi

theorem getD_take (l : Bytes) (n i : Nat) (h : i < n) : (l.take n).getD i 0 = l.getD i 0 := by
  simp [List.getD_eq_getElem?_getD, List.getElem?_take, h]

theorem getD_of_length_le (l : Bytes) (i : Nat) (h : l.length ≤ i) : l.getD i 0 = 0 := by
  simp [List.getD_eq_getElem?_getD, List.getElem?_eq_none h]

theorem compare_loop_iff_forall (cp digest : Bytes) :
    compare_loop cp digest = true ↔ ∀ i, i < RESPONSE_LEN → cp.getD i 0 = digest.getD i 0 := by
  simp [compare_loop, List.all_eq_true]

/-- Against a digest without zero bytes the loop compares exactly the first
`RESPONSE_LEN` bytes of the response: a response that ends early differs at its end. -/
theorem compare_loop_iff_take (cp digest : Bytes) (hlen : RESPONSE_LEN ≤ digest.length)
    (hnz : ∀ i, i < RESPONSE_LEN → digest.getD i 0 ≠ 0) :
    compare_loop cp digest = true ↔ cp.take RESPONSE_LEN = digest.take RESPONSE_LEN := by
  rw [compare_loop_iff_forall]
  constructor
  · intro h
    have hcp : RESPONSE_LEN ≤ cp.length := by
      by_contra hlt
      have hlt : cp.length < RESPONSE_LEN := Nat.lt_of_not_le hlt
      have h1 := h cp.length hlt
      rw [getD_of_length_le cp cp.length (le_refl _)] at h1
      exact hnz cp.length hlt h1.symm
    apply ext_getD
    · simp [List.length_take, Nat.min_eq_left hcp, Nat.min_eq_left hlen]
    · intro j hj
      have hj' : j < RESPONSE_LEN := by
        rw [List.length_take] at hj; omega
      rw [getD_take _ _ _ hj', getD_take _ _ _ hj']
      exact h j hj'
  · intro h i hi
    rw [← getD_take cp RESPONSE_LEN i hi, ← getD_take digest RESPONSE_LEN i hi, h]

/-! ## Lemmas on C strings and on the layout of the hashed buffer -/

theorem writeAt_append (pre mid post data : Bytes) (h : data.length = mid.length) :
    writeAt (pre ++ (mid ++ post)) pre.length data = pre ++ (data ++ post) := by
  unfold writeAt
  rw [List.take_left, List.take_of_length_le (by simp; omega)]
  have : pre.length + data.length = (pre ++ mid).length := by simp [h]
  rw [this, ← List.append_assoc pre mid post, List.drop_left]

theorem zeros_add (a b : Nat) : zeros (a + b) = zeros a ++ zeros b := by
  simp only [zeros, List.append_replicate_replicate]

theorem strncpy_bytes_eq_resize (src : Bytes) (n : Nat) :
    strncpy_bytes src n = resize (cstr src) n := rfl

theorem resize_length (s : Bytes) (n : Nat) : (resize s n).length = n := by
  simp [resize, zeros]; omega

theorem cstr_append_zero (s t : Bytes) : cstr (s ++ 0 :: t) = cstr s := by
  induction s with
  | nil => simp [cstr]
  | cons a s ih =>
    by_cases ha : a = 0
    · simp [cstr, ha]
    · simp only [cstr] at ih ⊢
      simp [List.takeWhile_cons, ha, ih]

theorem cstr_take (s : Bytes) (n : Nat) : cstr (s.take n) = (cstr s).take n := by
  induction s generalizing n with
  | nil => simp [cstr]
  | cons a s ih =>
    cases n with
    | zero => simp [cstr]
    | succ n =>
      by_cases ha : a = 0
      · simp [cstr, ha]
      · simp only [cstr] at ih ⊢
        simp [List.takeWhile_cons, ha, ih]

theorem take_append_zeros (s : Bytes) (n m : Nat) (h : n ≤ s.length + m) :
    (s ++ zeros m).take n = resize s n := by
  simp only [resize, zeros, List.take_append_eq_append_take, List.take_replicate]
  congr 2
  omega

theorem cstr_length_le (s : Bytes) : (cstr s).length ≤ s.length := by
  induction s with
  | nil => simp [cstr]
  | cons a s ih =>
    simp only [cstr] at ih ⊢
    rw [List.takeWhile_cons]
    split
    · simp only [List.length_cons]; omega
    · simp

theorem cstr_append_zeros (s : Bytes) (k : Nat) : cstr (s ++ zeros k) = cstr s := by
  cases k with
  | zero => simp [zeros]
  | succ k =>
    have : zeros (k + 1) = 0 :: zeros k := by simp [zeros, List.replicate_succ]
    rw [this, cstr_append_zero]

theorem cstr_c_str (s : Bytes) : cstr (c_str s) = cstr s := cstr_append_zero s []

theorem resize_take (s : Bytes) (n : Nat) : resize (s.take n) n = resize s n := by
  simp only [resize, List.take_take, Nat.min_self, List.length_take]
  congr 2
  omega

theorem strncpy_bytes_length (src : Bytes) (n : Nat) : (strncpy_bytes src n).length = n :=
  resize_length (cstr src) n

theorem strncpy_bytes_strlen (src : Bytes) : strncpy_bytes src (strlen src) = cstr src := by
  simp [strncpy_bytes, strlen, zeros]

theorem writeAt_zeros (a b : Nat) (data : Bytes) (h : data.length = a) :
    writeAt (zeros (a + b)) 0 data = data ++ zeros b := by
  have := writeAt_append [] (zeros a) (zeros b) data (by rw [zeros_length, h])
  rw [zeros_add]
  simpa using this

theorem take_writeAt (buf : Bytes) (off : Nat) (data : Bytes) (h : off ≤ buf.length) :
    (writeAt buf off data).take off = buf.take off := by
  unfold writeAt
  rw [List.take_append_of_le_length (by rw [List.length_take]; omega), List.take_take, Nat.min_self]

theorem take_writeAt_data (buf : Bytes) (off : Nat) (data : Bytes)
    (h : off + data.length ≤ buf.length) :
    (writeAt buf off data).take (off + data.length) = buf.take off ++ data := by
  unfold writeAt
  have h1 : (buf.take off).length = off := by rw [List.length_take]; omega
  have h2 : data.take (buf.length - off) = data := List.take_of_length_le (by omega)
  rw [h2]
  nth_rewrite 1 [← h1]
  rw [List.take_append, List.take_left]

/-- The bytes the server hashes: the challenge and the server ID, each read as a C string
and cut or filled up with zero bytes to its fixed length. -/
theorem agent_hash_input_eq (challenge serverId : Bytes)
    (h : serverId.length ≤ MAX_PASSWORD_LEN + 2) :
    agent_hash_input challenge serverId =
      resize (cstr challenge) CHALLENGE_LEN ++ resize (cstr serverId) MAX_PASSWORD_LEN := by
  have hk : (cstr serverId).length ≤ MAX_PASSWORD_LEN + 2 := le_trans (cstr_length_le _) h
  have hX : (resize (cstr challenge) CHALLENGE_LEN).length = CHALLENGE_LEN := resize_length _ _
  unfold agent_hash_input agent_md5Buf strncpy
  rw [strncpy_bytes_strlen, strncpy_bytes_eq_resize, Nat.add_assoc,
    writeAt_zeros CHALLENGE_LEN (MAX_PASSWORD_LEN + 2) _ hX]
  have hz : zeros (MAX_PASSWORD_LEN + 2) =
      zeros (cstr serverId).length ++ zeros (MAX_PASSWORD_LEN + 2 - (cstr serverId).length) := by
    rw [← zeros_add]; congr 1; omega
  rw [hz]
  generalize resize (cstr challenge) CHALLENGE_LEN = X at hX ⊢
  rw [← hX, writeAt_append _ _ _ _ (by rw [zeros_length]), List.take_append,
    take_append_zeros _ _ _ (by omega)]


theorem strncpy_c_str_resize (s : Bytes) (n : Nat) :
    strncpy_bytes (c_str (resize s n)) n = resize (cstr s) n := by
  have h : cstr (resize s n) = (cstr s).take n := by
    unfold resize
    rw [cstr_append_zeros, cstr_take]
  rw [strncpy_bytes_eq_resize, cstr_c_str, h, resize_take]

/-- The bytes the client hashes when the password is prompted for: the challenge and
the password, each read as a C string and cut or filled up with zero bytes to its
fixed length. -/
theorem client_hash_input_eq (E : ClientEnv) (request_result user_name : Bytes)
    (hu : user_name ≠ E.ANONYMOUS_USER) (hp : E.obfGetPw.1 ≠ 0) :
    client_hash_input E request_result user_name =
      resize (cstr request_result) CHALLENGE_LEN ++ resize (cstr E.password) MAX_PASSWORD_LEN := by
  have hX : (resize (cstr request_result) CHALLENGE_LEN).length = CHALLENGE_LEN :=
    resize_length _ _
  have hP : (strncpy_bytes (c_str E.password) MAX_PASSWORD_LEN).length = MAX_PASSWORD_LEN :=
    strncpy_bytes_length _ _
  have hneed : need_password E user_name = true := by
    simp [need_password, hu, hp]
  unfold client_hash_input client_md5_buf
  simp only [hneed, if_true, if_neg hu, strncpy]
  rw [strncpy_c_str_resize, Nat.add_assoc, writeAt_zeros CHALLENGE_LEN (MAX_PASSWORD_LEN + 2) _ hX]
  have hlen1 : (writeAt (resize (cstr request_result) CHALLENGE_LEN ++ zeros (MAX_PASSWORD_LEN + 2))
      CHALLENGE_LEN E.obfGetPw.2).length = CHALLENGE_LEN + (MAX_PASSWORD_LEN + 2) := by
    rw [writeAt_length _ _ _ (by rw [List.length_append, hX]; omega), List.length_append, hX,
      zeros_length]
  have key := take_writeAt_data
    (writeAt (resize (cstr request_result) CHALLENGE_LEN ++ zeros (MAX_PASSWORD_LEN + 2))
      CHALLENGE_LEN E.obfGetPw.2)
    CHALLENGE_LEN (strncpy_bytes (c_str E.password) MAX_PASSWORD_LEN) (by rw [hlen1, hP]; omega)
  rw [hP] at key
  rw [key, take_writeAt _ _ _ (by rw [List.length_append, hX]; omega),
    strncpy_bytes_eq_resize, cstr_c_str, List.take_left' hX]

theorem cstr_eq_self (s : Bytes) (h : ∀ b ∈ s, b ≠ 0) : cstr s = s := by
  unfold cstr
  rw [List.takeWhile_eq_self_iff]
  intro b hb
  simpa using h b hb

/-! ## The server step: general lemmas -/

theorem agent_response_of_auth_error (E : Env) (comm : RsComm) (req : Json) (e : AuthError)
    (tr : List Event) (h : auth_phase E comm req = (Except.error e, tr)) :
    native_auth_agent_response E comm req = { result := Except.error e, comm := comm, trace := tr } := by
  simp only [native_auth_agent_response, h]

theorem agent_response_of_cross_zone_error (E : Env) (comm : RsComm) (req : Json)
    (host : RodsServerHost) (zone_name : Bytes) (out : AuthCheckOut) (tr : List Event)
    (e : AuthError)
    (h : auth_phase E comm req = (Except.ok (host, zone_name, out), tr))
    (hhost : E.LOCAL_HOST ≠ host.localFlag)
    (hcz : cross_zone_check E zone_name out = Except.error e) :
    native_auth_agent_response E comm req = { result := Except.error e, comm := comm, trace := tr } := by
  simp only [native_auth_agent_response, h, hcz, if_pos hhost]

theorem agent_response_of_cross_zone_ok (E : Env) (comm : RsComm) (req : Json)
    (host : RodsServerHost) (zone_name : Bytes) (out : AuthCheckOut) (tr : List Event)
    (h : auth_phase E comm req = (Except.ok (host, zone_name, out), tr))
    (hhost : E.LOCAL_HOST ≠ host.localFlag)
    (hcz : cross_zone_check E zone_name out = Except.ok ()) :
    native_auth_agent_response E comm req = identity_phase E host comm out req tr := by
  simp only [native_auth_agent_response, h, hcz, if_pos hhost]

theorem agent_response_of_local_host (E : Env) (comm : RsComm) (req : Json)
    (host : RodsServerHost) (zone_name : Bytes) (out : AuthCheckOut) (tr : List Event)
    (h : auth_phase E comm req = (Except.ok (host, zone_name, out), tr))
    (hhost : E.LOCAL_HOST = host.localFlag) :
    native_auth_agent_response E comm req = identity_phase E host comm out req tr := by
  simp only [native_auth_agent_response, h, hhost, ne_eq, not_true_eq_false, if_false]

/-- A run of the server step ends in the first phase, in the cross-zone check, or is a
run of the last phase. -/
theorem agent_response_cases (E : Env) (comm : RsComm) (req : Json) :
    (∃ e tr, native_auth_agent_response E comm req =
        { result := Except.error e, comm := comm, trace := tr } ∧
        ((auth_phase E comm req = (Except.error e, tr)) ∨
         (∃ host zone_name out, auth_phase E comm req = (Except.ok (host, zone_name, out), tr) ∧
            E.LOCAL_HOST ≠ host.localFlag ∧ cross_zone_check E zone_name out = Except.error e))) ∨
    (∃ host zone_name out tr, auth_phase E comm req = (Except.ok (host, zone_name, out), tr) ∧
        native_auth_agent_response E comm req = identity_phase E host comm out req tr) := by
  rcases h : auth_phase E comm req with ⟨r, tr⟩
  cases r with
  | error e =>
    left
    exact ⟨e, tr, agent_response_of_auth_error E comm req e tr h, Or.inl rfl⟩
  | ok v =>
    obtain ⟨host, zone_name, out⟩ := v
    by_cases hhost : E.LOCAL_HOST = host.localFlag
    · right
      exact ⟨host, zone_name, out, tr, rfl, agent_response_of_local_host E comm req host zone_name out tr h hhost⟩
    · cases hcz : cross_zone_check E zone_name out with
      | error e =>
        left
        exact ⟨e, tr, agent_response_of_cross_zone_error E comm req host zone_name out tr e h hhost hcz,
          Or.inr ⟨host, zone_name, out, rfl, hhost, hcz⟩⟩
      | ok u =>
        right
        exact ⟨host, zone_name, out, tr, rfl,
          agent_response_of_cross_zone_ok E comm req host zone_name out tr h hhost hcz⟩

theorem set_client_zone_ok (E : Env) (comm comm1 : RsComm)
    (h : set_client_zone E comm = Except.ok comm1) :
    comm1.proxyUser = comm.proxyUser ∧ comm1.clientUser.userName = comm.clientUser.userName ∧
    comm1.clientUser.authInfo = comm.clientUser.authInfo ∧
    (comm1 = comm ∨
      (comm.clientUser.rodsZone.getD 0 0 = 0 ∧ ¬ E.getLocalZoneInfo.1 < 0 ∧
        comm1.clientUser.rodsZone = strncpy_bytes E.getLocalZoneInfo.2 E.NAME_LEN)) := by
  unfold set_client_zone at h
  by_cases h0 : comm.clientUser.rodsZone.getD 0 0 = 0
  · rw [if_pos h0] at h
    by_cases hs : E.getLocalZoneInfo.1 < 0
    · rw [if_pos hs] at h; cases h
    · rw [if_neg hs] at h
      injection h with h
      subst h
      exact ⟨rfl, rfl, rfl, Or.inr ⟨h0, hs, rfl⟩⟩
  · rw [if_neg h0] at h
    injection h with h
    subst h
    exact ⟨rfl, rfl, rfl, Or.inl rfl⟩

theorem adjust_priv_error (E : Env) (host : RodsServerHost) (comm : RsComm) (out : AuthCheckOut)
    (e : AuthError) (h : adjust_priv E host comm out = Except.error e) :
    E.getLocalZoneInfo.1 < 0 ∧ e = AuthError.get_local_zone_info_failed E.getLocalZoneInfo.1 := by
  unfold adjust_priv at h
  split at h
  · split at h
    · cases h
    · split at h
      · next hs => injection h with h; exact ⟨hs, h.symm⟩
      · cases h
  · split at h <;> cases h

/-- What a failed run of the last phase leaves behind. -/
theorem identity_phase_error (E : Env) (host : RodsServerHost) (comm : RsComm) (out : AuthCheckOut)
    (resp : Json) (tr : List Event) (e : AuthError)
    (h : (identity_phase E host comm out resp tr).result = Except.error e) :
    (identity_phase E host comm out resp tr).comm = comm ∨
    (∃ code, e = AuthError.insufficient_privilege code) ∧
      set_client_zone E comm = Except.ok (identity_phase E host comm out resp tr).comm := by
  unfold identity_phase at h ⊢
  cases hz : set_client_zone E comm with
  | error e1 => left; rfl
  | ok comm1 =>
    simp only [hz] at h ⊢
    cases ha : adjust_priv E host comm1 out with
    | error e2 =>
      left
      simp only
      have hs := (adjust_priv_error E host comm1 out e2 ha).1
      rcases (set_client_zone_ok E comm comm1 hz).2.2.2 with h1 | h1
      · exact h1
      · exact absurd hs h1.2.1
    | ok out1 =>
      simp only [ha] at h ⊢
      cases hg : E.throw_on_insufficient_privilege_for_proxy_user comm1 out1.privLevel with
      | some code =>
        simp only [hg] at h ⊢
        right
        injection h with h
        exact ⟨⟨code, h.symm⟩, trivial⟩
      | none =>
        simp only [hg] at h
        cases h

theorem adjust_priv_ok (E : Env) (host : RodsServerHost) (comm : RsComm) (out out1 : AuthCheckOut)
    (h : adjust_priv E host comm out = Except.ok out1) :
    out1.privLevel =
      (if host.rcatEnabled = E.REMOTE_ICAT then remap_proxy out.privLevel else out.privLevel) ∧
    (strcmp_eq comm.proxyUser.userName comm.clientUser.userName = true →
      out1.clientPrivLevel = out1.privLevel) ∧
    (strcmp_eq comm.proxyUser.userName comm.clientUser.userName = false →
      out1.clientPrivLevel =
        (if host.rcatEnabled = E.REMOTE_ICAT then
          remap_client (strcmp_eq E.getLocalZoneInfo.2 comm.clientUser.rodsZone) out.clientPrivLevel
         else out.clientPrivLevel)) := by
  unfold adjust_priv at h
  by_cases hr : host.rcatEnabled = E.REMOTE_ICAT
  · rw [if_pos hr] at h
    rw [if_pos hr, if_pos hr]
    by_cases hs : strcmp_eq comm.proxyUser.userName comm.clientUser.userName = true
    · simp only [hs, if_true] at h
      injection h with h
      subst h
      exact ⟨rfl, fun _ => rfl, fun hf => by rw [hs] at hf; cases hf⟩
    · simp only [hs, if_false] at h
      by_cases hz : E.getLocalZoneInfo.1 < 0
      · rw [if_pos hz] at h; cases h
      · rw [if_neg hz] at h
        injection h with h
        subst h
        exact ⟨rfl, fun ht => absurd ht hs, fun _ => rfl⟩
  · rw [if_neg hr] at h
    rw [if_neg hr, if_neg hr]
    by_cases hs : strcmp_eq comm.proxyUser.userName comm.clientUser.userName = true
    · simp only [hs, if_true] at h
      injection h with h
      subst h
      exact ⟨rfl, fun _ => rfl, fun hf => by rw [hs] at hf; cases hf⟩
    · simp only [hs, if_false] at h
      injection h with h
      subst h
      exact ⟨rfl, fun ht => absurd ht hs, fun _ => rfl⟩

/-- What a successful run of the last phase leaves behind. -/
theorem identity_phase_ok (E : Env) (host : RodsServerHost) (comm : RsComm) (out : AuthCheckOut)
    (req resp : Json) (tr : List Event)
    (h : (identity_phase E host comm out req tr).result = Except.ok resp) :
    ∃ comm1 out1, set_client_zone E comm = Except.ok comm1 ∧
      adjust_priv E host comm1 out = Except.ok out1 ∧
      (identity_phase E host comm out req tr).comm = set_auth_flags comm1 out1 := by
  unfold identity_phase at h ⊢
  cases hz : set_client_zone E comm with
  | error e1 => simp only [hz] at h; cases h
  | ok comm1 =>
    simp only [hz] at h ⊢
    cases ha : adjust_priv E host comm1 out with
    | error e2 => simp only [ha] at h; cases h
    | ok out1 =>
      simp only [ha] at h ⊢
      cases hg : E.throw_on_insufficient_privilege_for_proxy_user comm1 out1.privLevel with
      | some code => simp only [hg] at h; cases h
      | none => exact ⟨comm1, out1, rfl, ha, by simp only [hg]⟩

theorem set_auth_flags_proxy (comm : RsComm) (out : AuthCheckOut) :
    (set_auth_flags comm out).proxyUser.authInfo.authFlag = out.privLevel := by
  unfold set_auth_flags
  split <;> rfl

theorem set_auth_flags_client (comm : RsComm) (out : AuthCheckOut) :
    (set_auth_flags comm out).clientUser.authInfo.authFlag =
      (if strcmp_eq comm.proxyUser.userName comm.clientUser.userName then out.privLevel
       else out.clientPrivLevel) := by
  unfold set_auth_flags
  by_cases hs : strcmp_eq comm.proxyUser.userName comm.clientUser.userName = true
  · simp [hs]
  · simp [hs]

/-- The levels a successful run stores, in terms of the output of the check. -/
theorem agent_response_ok_flags (E : Env) (comm : RsComm) (req resp : Json)
    (host : RodsServerHost) (zone_name : Bytes) (out : AuthCheckOut) (tr : List Event)
    (hauth : auth_phase E comm req = (Except.ok (host, zone_name, out), tr))
    (h : (native_auth_agent_response E comm req).result = Except.ok resp) :
    ∃ comm1, set_client_zone E comm = Except.ok comm1 ∧
      (native_auth_agent_response E comm req).comm.proxyUser.authInfo.authFlag =
        (if host.rcatEnabled = E.REMOTE_ICAT then remap_proxy out.privLevel else out.privLevel) ∧
      (native_auth_agent_response E comm req).comm.clientUser.authInfo.authFlag =
        (if strcmp_eq comm.proxyUser.userName comm.clientUser.userName then
          (if host.rcatEnabled = E.REMOTE_ICAT then remap_proxy out.privLevel else out.privLevel)
         else if host.rcatEnabled = E.REMOTE_ICAT then
          remap_client (strcmp_eq E.getLocalZoneInfo.2 comm1.clientUser.rodsZone) out.clientPrivLevel
         else out.clientPrivLevel) := by
  rcases agent_response_cases E comm req with ⟨e1, tr1, h1, _⟩ | ⟨host1, zone1, out1, tr1, ha1, h1⟩
  · rw [h1] at h; cases h
  · rw [hauth] at ha1
    injection ha1 with ha1 htr
    injection ha1 with ha1
    injection ha1 with hhost ha1
    injection ha1 with hzone hout
    subst hhost hzone hout htr
    rw [h1] at h ⊢
    obtain ⟨comm1, out2, hz, ha, hc⟩ := identity_phase_ok E host comm out req resp tr h
    obtain ⟨hp, hn, ha', _⟩ := set_client_zone_ok E comm comm1 hz
    obtain ⟨hpriv, hsame, hdiff⟩ := adjust_priv_ok E host comm1 out out2 ha
    rw [hp, hn] at hsame hdiff
    refine ⟨comm1, hz, ?_, ?_⟩
    · rw [hc, set_auth_flags_proxy, hpriv]
    · rw [hc, set_auth_flags_client, hp, hn]
      by_cases hs : strcmp_eq comm.proxyUser.userName comm.clientUser.userName = true
      · rw [if_pos hs, if_pos hs, hpriv]
      · rw [if_neg hs, if_neg hs]
        exact hdiff (by simpa using hs)

/-! ## Lemmas on the decoding of the digest -/

theorem base64_decode_error_of_bad (text : Bytes) (n : Nat)
    (hbad : (decode_groups text).map List.length ≠ some n) :
    base64_decode text n = Except.error (-1) := by
  unfold base64_decode
  cases hd : decode_groups text with
  | none => rfl
  | some bytes =>
    simp only
    rw [hd] at hbad
    have : bytes.length ≠ n := fun h => hbad (by simp [h])
    rw [if_neg this]

theorem base64_decode_ok_length (text bytes : Bytes) (n : Nat)
    (h : base64_decode text n = Except.ok bytes) : bytes.length = n ∧ decode_groups text = some bytes := by
  unfold base64_decode at h
  cases hd : decode_groups text with
  | none => rw [hd] at h; cases h
  | some b =>
    rw [hd] at h
    simp only at h
    split at h
    · next hl => injection h with h; subst h; exact ⟨hl, rfl⟩
    · cases h

/-- The first phase, for a digest text that does not decode to `RESPONSE_LEN` bytes. -/
theorem auth_phase_bad_digest (E : Env) (comm : RsComm) (req : Json) (text : Bytes)
    (hd : req.get_string "digest" = some text)
    (hbad : (decode_groups text).map List.length ≠ some RESPONSE_LEN) :
    (∃ e, (auth_phase E comm req).1 = Except.error e) ∧
    (∀ ev ∈ (auth_phase E comm req).2, ev.isAuthCheck = false) ∧
    (∀ zone_name, req.contains "zone_name" = true → req.contains "user_name" = true →
      req.get_string "zone_name" = some zone_name →
      ¬ (E.getAndConnRcatHostNoLogin comm (c_str zone_name)).1 < 0 →
      (auth_phase E comm req).1 = Except.error AuthError.base64_decode_failed) := by
  have hdec := base64_decode_error_of_bad text RESPONSE_LEN hbad
  have hc : req.contains "digest" = true := by
    unfold Json.get_string at hd
    unfold Json.contains
    cases h : req.at? "digest" with
    | none => rw [h] at hd; cases hd
    | some v => rfl
  unfold auth_phase
  simp only [hd, hdec, hc, Bool.true_and]
  by_cases hk : (req.contains "zone_name" && req.contains "user_name") = true
  · simp only [hk, Bool.not_true, Bool.false_eq_true, if_false]
    cases hz : req.get_string "zone_name" with
    | none =>
      simp only
      exact ⟨⟨_, rfl⟩, by simp, fun z _ _ h => by cases h⟩
    | some zone_name =>
      simp only
      by_cases hconn : (E.getAndConnRcatHostNoLogin comm (c_str zone_name)).1 < 0
      · simp only [hconn, if_true]
        refine ⟨⟨_, rfl⟩, by simp [Event.isAuthCheck], ?_⟩
        intro z _ _ hz' hn
        injection hz' with hz'
        subst hz'
        exact absurd hconn hn
      · simp only [hconn, if_false]
        exact ⟨⟨_, rfl⟩, by simp [Event.isAuthCheck], fun _ _ _ _ _ => trivial⟩
  · have hk' : (req.contains "zone_name" && req.contains "user_name") = false := by
      simpa using hk
    simp only [hk', Bool.not_false, if_true]
    refine ⟨⟨_, rfl⟩, by simp, ?_⟩
    intro z h1 h2 _ _
    rw [h1, h2] at hk'
    cases hk'

/-! ## The scrub loop: claim C2 -/

/-- C2: the scrub loop applied to a raw digest `d` of 16 bytes yields 16 bytes, holds `1`
at every position where `d` holds zero, leaves every other position unchanged, hence
yields no zero byte, and is idempotent.  On the array `digest` of the source, which has
two more bytes, the loop acts on the 16 bytes of the digest alone. -/
theorem scrub_spec (d : Bytes) (h : d.length = RESPONSE_LEN) :
    (scrub d).length = 16 ∧
    (∀ i, i < 16 → d.getD i 0 = 0 → (scrub d).getD i 0 = 1) ∧
    (∀ i, i < 16 → d.getD i 0 ≠ 0 → (scrub d).getD i 0 = d.getD i 0) ∧
    (∀ b ∈ scrub d, b ≠ 0) ∧
    scrub (scrub d) = scrub d ∧
    (∀ t, scrub (d ++ t) = scrub d ++ t) := by
  have hle : RESPONSE_LEN ≤ d.length := le_of_eq h.symm
  have h16 : RESPONSE_LEN = 16 := rfl
  refine ⟨by rw [scrub_length, h, h16], ?_, ?_, ?_, scrub_idem d hle, fun t => scrub_append d t h⟩
  · intro i hi h0
    rw [scrub_getD d hle, if_pos (by omega), if_pos h0]
  · intro i hi h0
    rw [scrub_getD d hle, if_pos (by omega), if_neg h0]
  · intro b hb
    obtain ⟨i, hi, rfl⟩ := List.getElem_of_mem hb
    have hi' : i < RESPONSE_LEN := by rw [scrub_length, h] at hi; exact hi
    have := scrub_ne_zero d hle i hi'
    simpa [List.getD_eq_getElem?_getD, List.getElem?_eq_getElem hi] using this

/-- C2 at a concrete digest with zero bytes at the positions 0, 7 and 15. -/
theorem scrub_spec_witness :
    (scrub [0, 2, 3, 4, 5, 6, 7, 0, 9, 10, 11, 12, 13, 14, 255, 0]).length = 16 ∧
    scrub [0, 2, 3, 4, 5, 6, 7, 0, 9, 10, 11, 12, 13, 14, 255, 0]
      = [1, 2, 3, 4, 5, 6, 7, 1, 9, 10, 11, 12, 13, 14, 255, 1] :=
  ⟨(scrub_spec [0, 2, 3, 4, 5, 6, 7, 0, 9, 10, 11, 12, 13, 14, 255, 0] (by decide)).1, by decide⟩

/-! ## The cross-zone check: claim C1 -/

/-- C1, as the code has it: on the cross-zone path (the authentication check has
succeeded on a host that is not local, a server response is provided and the zone has
a server ID) the check passes if and only if the first 16 bytes of the response equal
the scrubbed digest; a response that differs from it in any of the 16 positions makes
the step fail, with REMOTE_SERVER_AUTH_EMPTY when the first byte of the response is
zero and with REMOTE_SERVER_AUTHENTICATION_FAILURE otherwise; and a response that
matches is never rejected as empty. -/
theorem cross_zone_check_spec (E : Env) (comm : RsComm) (req : Json) (host : RodsServerHost)
    (zone_name : Bytes) (out : AuthCheckOut) (tr : List Event) (serverResponse : Bytes)
    (hauth : auth_phase E comm req = (Except.ok (host, zone_name, out), tr))
    (hhost : E.LOCAL_HOST ≠ host.localFlag)
    (hresp : out.serverResponse = some serverResponse)
    (hsid : (agent_serverId E zone_name).getD 0 0 ≠ 0) :
    (cross_zone_check E zone_name out = Except.ok () ↔
      serverResponse.take 16 = (agent_digest E zone_name).take 16) ∧
    (∀ i, i < 16 → serverResponse.getD i 0 ≠ (agent_digest E zone_name).getD i 0 →
      (native_auth_agent_response E comm req).result =
        Except.error (if serverResponse.getD 0 0 = 0 then AuthError.REMOTE_SERVER_AUTH_EMPTY
          else AuthError.REMOTE_SERVER_AUTHENTICATION_FAILURE)) ∧
    (serverResponse.take 16 = (agent_digest E zone_name).take 16 →
      cross_zone_check E zone_name out ≠ Except.error AuthError.REMOTE_SERVER_AUTH_EMPTY) := by
  have hlen : RESPONSE_LEN ≤ (agent_digest E zone_name).length := by
    rw [agent_digest_length]; omega
  have hnz := agent_digest_ne_zero E zone_name
  have hiff := compare_loop_iff_take serverResponse (agent_digest E zone_name) hlen hnz
  have h16 : RESPONSE_LEN = 16 := rfl
  rw [h16] at hiff
  have hfirst : serverResponse.take 16 = (agent_digest E zone_name).take 16 →
      serverResponse.getD 0 0 ≠ 0 := by
    intro h
    rw [← getD_take serverResponse 16 0 (by omega), h, getD_take _ 16 0 (by omega)]
    exact hnz 0 (by rw [h16]; omega)
  have hcz : cross_zone_check E zone_name out = Except.ok () ↔
      serverResponse.take 16 = (agent_digest E zone_name).take 16 := by
    constructor
    · intro h
      by_cases hc : compare_loop serverResponse (agent_digest E zone_name) = true
      · exact hiff.mp hc
      · exfalso
        simp only [cross_zone_check, hresp] at h
        by_cases h0 : serverResponse.getD 0 0 = 0
        · rw [if_pos h0] at h; cases h
        · rw [if_neg h0, if_neg hsid, if_neg hc] at h; cases h
    · intro h
      simp only [cross_zone_check, hresp]
      rw [if_neg (hfirst h), if_neg hsid, if_pos (hiff.mpr h)]
  refine ⟨hcz, ?_, ?_⟩
  · intro i hi hne
    have hcmp : ¬ compare_loop serverResponse (agent_digest E zone_name) = true := by
      intro hc
      exact hne ((compare_loop_iff_forall _ _).mp hc i (by rw [h16]; exact hi))
    by_cases h0 : serverResponse.getD 0 0 = 0
    · have : cross_zone_check E zone_name out = Except.error AuthError.REMOTE_SERVER_AUTH_EMPTY := by
        simp only [cross_zone_check, hresp, if_pos h0]
      rw [agent_response_of_cross_zone_error E comm req host zone_name out tr _ hauth hhost this,
        if_pos h0]
    · have : cross_zone_check E zone_name out =
          Except.error AuthError.REMOTE_SERVER_AUTHENTICATION_FAILURE := by
        simp only [cross_zone_check, hresp]
        rw [if_neg h0, if_neg hsid, if_neg hcmp]
      rw [agent_response_of_cross_zone_error E comm req host zone_name out tr _ hauth hhost this,
        if_neg h0]
  · intro h
    rw [hcz.mpr h]
    exact fun hbad => by cases hbad

/-- C1 at an example run: the response that equals the scrubbed digest in all 16
positions passes the check, and the response that differs from it in the last position
alone raises REMOTE_SERVER_AUTHENTICATION_FAILURE. -/
theorem cross_zone_check_spec_witness :
    (cross_zone_check (demo_cross_zone_env LOCAL_USER_AUTH LOCAL_USER_AUTH
        (some (1 :: List.replicate 14 200 ++ [201]))) (lit "otherZone")
        { privLevel := LOCAL_USER_AUTH, clientPrivLevel := LOCAL_USER_AUTH,
          serverResponse := some (1 :: List.replicate 14 200 ++ [201]) } = Except.ok () ↔
      (1 :: List.replicate 14 200 ++ [201]).take 16 =
        (agent_digest (demo_cross_zone_env LOCAL_USER_AUTH LOCAL_USER_AUTH
          (some (1 :: List.replicate 14 200 ++ [201]))) (lit "otherZone")).take 16) ∧
    (native_auth_agent_response (demo_cross_zone_env LOCAL_USER_AUTH LOCAL_USER_AUTH
        (some (1 :: List.replicate 14 200 ++ [201]))) demo_comm demo_req).result =
      Except.error AuthError.REMOTE_SERVER_AUTHENTICATION_FAILURE :=
  have h := cross_zone_check_spec
    (demo_cross_zone_env LOCAL_USER_AUTH LOCAL_USER_AUTH (some (1 :: List.replicate 14 200 ++ [201])))
    demo_comm demo_req { localFlag := 0, rcatEnabled := 2 } (lit "otherZone")
    { privLevel := LOCAL_USER_AUTH, clientPrivLevel := LOCAL_USER_AUTH,
      serverResponse := some (1 :: List.replicate 14 200 ++ [201]) }
    (auth_phase (demo_cross_zone_env LOCAL_USER_AUTH LOCAL_USER_AUTH
      (some (1 :: List.replicate 14 200 ++ [201]))) demo_comm demo_req).2
    (1 :: List.replicate 14 200 ++ [201]) (by decide) (by decide) rfl (by decide)
  ⟨h.1, h.2.1 15 (by decide) (by decide)⟩

/-- C1 as stated fails at a response whose first byte is zero.  In this cross-zone run
the check has succeeded, a server response is provided and the zone has a server ID;
the hash has a zero byte in position 0, which the scrub loop turns into 1, and the
response holds the hash as it was before scrubbing: it differs from the scrubbed digest
in position 0 and in no other position.  The step fails with REMOTE_SERVER_AUTH_EMPTY,
not with REMOTE_SERVER_AUTHENTICATION_FAILURE. -/
theorem cross_zone_zero_first_byte_raises_empty :
    auth_phase (demo_cross_zone_env LOCAL_USER_AUTH LOCAL_USER_AUTH (some (0 :: List.replicate 15 200)))
        demo_comm demo_req =
      (Except.ok ({ localFlag := 0, rcatEnabled := 2 }, lit "otherZone",
        { privLevel := LOCAL_USER_AUTH, clientPrivLevel := LOCAL_USER_AUTH,
          serverResponse := some (0 :: List.replicate 15 200) }),
       (auth_phase (demo_cross_zone_env LOCAL_USER_AUTH LOCAL_USER_AUTH
          (some (0 :: List.replicate 15 200))) demo_comm demo_req).2) ∧
    (demo_cross_zone_env LOCAL_USER_AUTH LOCAL_USER_AUTH (some (0 :: List.replicate 15 200))).LOCAL_HOST ≠ 0 ∧
    (agent_serverId (demo_cross_zone_env LOCAL_USER_AUTH LOCAL_USER_AUTH
      (some (0 :: List.replicate 15 200))) (lit "otherZone")).getD 0 0 ≠ 0 ∧
    (agent_digest (demo_cross_zone_env LOCAL_USER_AUTH LOCAL_USER_AUTH
      (some (0 :: List.replicate 15 200))) (lit "otherZone")).take 16 = 1 :: List.replicate 15 200 ∧
    (native_auth_agent_response (demo_cross_zone_env LOCAL_USER_AUTH LOCAL_USER_AUTH
      (some (0 :: List.replicate 15 200))) demo_comm demo_req).result =
      Except.error AuthError.REMOTE_SERVER_AUTH_EMPTY ∧
    (native_auth_agent_response (demo_cross_zone_env LOCAL_USER_AUTH LOCAL_USER_AUTH
      (some (0 :: List.replicate 15 200))) demo_comm demo_req).result ≠
      Except.error AuthError.REMOTE_SERVER_AUTHENTICATION_FAILURE := by
  decide

/-! ## The layout of the hashed buffer: claim C3 -/

/-- C3, as the code has it: on the client, when the password is prompted for, and on the
server, the bytes passed to the hash are exactly 114 = 64 + 50 bytes; bytes 0..63 are
the challenge, read as a C string (its bytes before the first zero byte) and cut to 64
bytes or filled up with zero bytes to 64 bytes; bytes 64..113 are the secret (the
prompted password, the zone server ID), read as a C string and cut to 50 bytes or
filled up with zero bytes to 50 bytes.  For a challenge and a password without a zero
byte these are the challenge and the password themselves. -/
theorem hash_input_layout (C : ClientEnv) (request_result user_name : Bytes) (E : Env)
    (zone_name : Bytes) (hu : user_name ≠ C.ANONYMOUS_USER) (hp : C.obfGetPw.1 ≠ 0) :
    (client_hash_input C request_result user_name).length = 114 ∧
    client_hash_input C request_result user_name =
      resize (cstr request_result) 64 ++ resize (cstr C.password) 50 ∧
    ((∀ b ∈ request_result, b ≠ 0) → (∀ b ∈ C.password, b ≠ 0) →
      client_hash_input C request_result user_name =
        resize request_result 64 ++ resize C.password 50) ∧
    (agent_hash_input E.challenge (agent_serverId E zone_name)).length = 114 ∧
    agent_hash_input E.challenge (agent_serverId E zone_name) =
      resize (cstr E.challenge) 64 ++ resize (cstr (agent_serverId E zone_name)) 50 := by
  have hc := client_hash_input_eq C request_result user_name hu hp
  have hsid : (agent_serverId E zone_name).length ≤ MAX_PASSWORD_LEN + 2 := by
    rw [agent_serverId, writeAt_length _ _ _ (Nat.zero_le _), zeros_length]
  have hs := agent_hash_input_eq E.challenge (agent_serverId E zone_name) hsid
  have h64 : CHALLENGE_LEN = 64 := rfl
  have h50 : MAX_PASSWORD_LEN = 50 := rfl
  rw [h64, h50] at hc hs
  refine ⟨?_, hc, ?_, ?_, hs⟩
  · rw [hc, List.length_append, resize_length, resize_length]
  · intro h1 h2
    rw [hc, cstr_eq_self _ h1, cstr_eq_self _ h2]
  · rw [hs, List.length_append, resize_length, resize_length]

/-- C3 at an example: the client hashes the challenge `abc` and the prompted password
`secret123`, each filled up with zero bytes. -/
theorem hash_input_layout_witness :
    client_hash_input demo_client_env (lit "abc") (lit "alice") =
      resize (cstr (lit "abc")) 64 ++ resize (cstr (lit "secret123")) 50 :=
  (hash_input_layout demo_client_env (lit "abc") (lit "alice")
    (demo_cross_zone_env LOCAL_USER_AUTH LOCAL_USER_AUTH none) (lit "otherZone")
    (by decide) (by decide)).2.1

/-- C3 as stated fails at a challenge with a zero byte before its end.  The client
receives the challenge `a`, zero byte, `b` and prompts for the password; `strncpy`
stops at the zero byte, so that byte 2 of the hashed buffer is zero and the hashed
buffer is not the challenge filled up with zero bytes followed by the password filled
up with zero bytes. -/
theorem hash_input_stops_at_zero_byte :
    need_password demo_client_env (lit "alice") = true ∧
    (resize [97, 0, 98] 64 ++ resize demo_client_env.password 50).getD 2 0 = 98 ∧
    (client_hash_input demo_client_env [97, 0, 98] (lit "alice")).getD 2 0 = 0 ∧
    client_hash_input demo_client_env [97, 0, 98] (lit "alice") ≠
      resize [97, 0, 98] 64 ++ resize demo_client_env.password 50 := by
  decide

/-! ## What a failed run leaves behind: claim C4 -/

/-- C4, as the code has it: when the step fails, the proxy authFlag and the client
authFlag of the connection are what they were before the call.  The zone of the client
is what it was before the call, unless it was empty before the call and the step fails
with insufficient proxy privilege: lines 308-317 have then stored the name of the local
zone into it.  After every other failure, and after every failure of a call with a
client zone that is set, the whole connection is what it was before the call. -/
theorem agent_response_failure_state (E : Env) (comm : RsComm) (req : Json) (e : AuthError)
    (h : (native_auth_agent_response E comm req).result = Except.error e) :
    (native_auth_agent_response E comm req).comm.proxyUser.authInfo.authFlag =
      comm.proxyUser.authInfo.authFlag ∧
    (native_auth_agent_response E comm req).comm.clientUser.authInfo.authFlag =
      comm.clientUser.authInfo.authFlag ∧
    ((native_auth_agent_response E comm req).comm.clientUser.rodsZone = comm.clientUser.rodsZone ∨
      (comm.clientUser.rodsZone.getD 0 0 = 0 ∧ (∃ code, e = AuthError.insufficient_privilege code) ∧
        (native_auth_agent_response E comm req).comm.clientUser.rodsZone =
          strncpy_bytes E.getLocalZoneInfo.2 E.NAME_LEN)) ∧
    ((∀ code, e ≠ AuthError.insufficient_privilege code) →
      (native_auth_agent_response E comm req).comm = comm) ∧
    (comm.clientUser.rodsZone.getD 0 0 ≠ 0 →
      (native_auth_agent_response E comm req).comm = comm) := by
  rcases agent_response_cases E comm req with ⟨e1, tr, h1, _⟩ | ⟨host, zone_name, out, tr, _, h1⟩
  · rw [h1]
    exact ⟨rfl, rfl, Or.inl rfl, fun _ => rfl, fun _ => rfl⟩
  · rw [h1] at h ⊢
    rcases identity_phase_error E host comm out req tr e h with h2 | ⟨hcode, h2⟩
    · rw [h2]
      exact ⟨rfl, rfl, Or.inl rfl, fun _ => rfl, fun _ => rfl⟩
    · obtain ⟨hp, _, ha, hz⟩ := set_client_zone_ok E comm _ h2
      refine ⟨by rw [hp], by rw [ha], ?_, ?_, ?_⟩
      · rcases hz with hz | ⟨h0, _, hz⟩
        · left; rw [hz]
        · right; exact ⟨h0, hcode, hz⟩
      · intro hne
        obtain ⟨code, hcode⟩ := hcode
        exact absurd hcode (hne code)
      · intro hne
        rcases hz with hz | ⟨h0, _, _⟩
        · exact hz
        · exact absurd h0 hne

/-- C4 at an example: a cross-zone run that fails since the server response is empty
leaves the connection as it was. -/
theorem agent_response_failure_state_witness :
    (native_auth_agent_response (demo_cross_zone_env LOCAL_USER_AUTH LOCAL_USER_AUTH (some []))
      demo_comm demo_req).result = Except.error AuthError.REMOTE_SERVER_AUTH_EMPTY ∧
    (native_auth_agent_response (demo_cross_zone_env LOCAL_USER_AUTH LOCAL_USER_AUTH (some []))
      demo_comm demo_req).comm = demo_comm :=
  ⟨by decide,
   (agent_response_failure_state (demo_cross_zone_env LOCAL_USER_AUTH LOCAL_USER_AUTH (some []))
      demo_comm demo_req AuthError.REMOTE_SERVER_AUTH_EMPTY (by decide)).2.2.2.1
      (fun _ hcode => AuthError.noConfusion hcode)⟩

/-- C4 as stated fails at a connection whose client zone is not set.  The run is on the
local host, the check succeeds, and the guard rejects the proxy privilege: the step
fails, and the client zone, which held zero bytes before the call, holds the name of
the local zone after it. -/
theorem agent_response_failure_keeps_client_zone_store :
    (native_auth_agent_response (demo_local_env LOCAL_USER_AUTH LOCAL_USER_AUTH (some (-1)))
      demo_comm demo_req).result = Except.error (AuthError.insufficient_privilege (-1)) ∧
    demo_comm.clientUser.rodsZone = zeros 64 ∧
    (native_auth_agent_response (demo_local_env LOCAL_USER_AUTH LOCAL_USER_AUTH (some (-1)))
      demo_comm demo_req).comm.clientUser.rodsZone = lit "tempZone" ++ zeros 56 ∧
    (native_auth_agent_response (demo_local_env LOCAL_USER_AUTH LOCAL_USER_AUTH (some (-1)))
      demo_comm demo_req).comm.clientUser.rodsZone ≠ demo_comm.clientUser.rodsZone := by
  decide

/-! ## The returned message: claim C5 -/

/-- C5, as the code has it: the message a successful run returns is the copy of the
request made in line 255, to which the step assigns no field; its next-operation field
is the one the request carries, and it is the terminal sentinel only when the request
carries the terminal sentinel. -/
theorem agent_response_returns_request (E : Env) (comm : RsComm) (req resp : Json)
    (h : (native_auth_agent_response E comm req).result = Except.ok resp) :
    resp = req ∧ resp.at? next_operation = req.at? next_operation ∧
    (resp.at? next_operation = some flow_complete ↔ req.at? next_operation = some flow_complete) := by
  have hr : resp = req := by
    rcases agent_response_cases E comm req with ⟨e1, tr, h1, _⟩ | ⟨host, zone_name, out, tr, _, h1⟩
    · rw [h1] at h; cases h
    · rw [h1] at h
      unfold identity_phase at h
      split at h
      · cases h
      · split at h
        · cases h
        · split at h
          · cases h
          · injection h with h; exact h.symm
  subst hr
  exact ⟨rfl, rfl, Iff.rfl⟩

/-- C5 at an example: the request of `native_auth_client_response` succeeds on the local
host and comes back as it is. -/
theorem agent_response_returns_request_witness :
    (native_auth_agent_response (demo_local_env LOCAL_USER_AUTH LOCAL_USER_AUTH none)
      demo_comm demo_req).result = Except.ok demo_req ∧
    demo_req.at? next_operation = demo_req.at? next_operation :=
  ⟨by decide,
   (agent_response_returns_request (demo_local_env LOCAL_USER_AUTH LOCAL_USER_AUTH none)
      demo_comm demo_req demo_req (by decide)).2.1⟩

/-- C5 as stated fails at the request that `native_auth_client_response` sends: its
next-operation field names the agent-response step (line 170), the step succeeds, and
the next-operation field of the returned message still names the agent-response step,
not the terminal sentinel. -/
theorem agent_response_next_operation_not_flow_complete :
    (native_auth_agent_response (demo_local_env LOCAL_USER_AUTH LOCAL_USER_AUTH none)
      demo_comm demo_req).result = Except.ok demo_req ∧
    demo_req.at? next_operation = some AUTH_AGENT_AUTH_RESPONSE ∧
    demo_req.at? next_operation ≠ some flow_complete := by
  decide

/-! ## The privilege levels a successful run stores: claims C6, C7 and C8 -/

/-- C6: when the proxy user name equals the client user name (`strcmp` yields 0), every
successful run ends with the client authFlag equal to the proxy authFlag, and both are
the final level of the proxy: the level the authentication check has returned, remapped
when the servicing host is a remote catalog.  The client zone, the local zone, the host
and the client level the check has returned are arbitrary. -/
theorem same_principal_auth_flags (E : Env) (comm : RsComm) (req resp : Json)
    (hsame : strcmp_eq comm.proxyUser.userName comm.clientUser.userName = true)
    (h : (native_auth_agent_response E comm req).result = Except.ok resp) :
    (native_auth_agent_response E comm req).comm.clientUser.authInfo.authFlag =
      (native_auth_agent_response E comm req).comm.proxyUser.authInfo.authFlag ∧
    ∃ host zone_name out tr, auth_phase E comm req = (Except.ok (host, zone_name, out), tr) ∧
      (native_auth_agent_response E comm req).comm.proxyUser.authInfo.authFlag =
        (if host.rcatEnabled = E.REMOTE_ICAT then remap_proxy out.privLevel else out.privLevel) := by
  rcases agent_response_cases E comm req with ⟨e1, tr1, h1, _⟩ | ⟨host, zone_name, out, tr, hauth, _⟩
  · rw [h1] at h; cases h
  · obtain ⟨comm1, _, hp, hc⟩ := agent_response_ok_flags E comm req resp host zone_name out tr hauth h
    rw [if_pos hsame] at hc
    exact ⟨by rw [hc, hp], host, zone_name, out, tr, hauth, hp⟩

/-- C6 at an example: the proxy `rods` is its own client, the servicing host is a remote
catalog and the check returns a privileged local proxy and an unprivileged client; both
flags end as `REMOTE_PRIV_USER_AUTH`. -/
theorem same_principal_auth_flags_witness :
    (native_auth_agent_response
      (demo_cross_zone_env LOCAL_PRIV_USER_AUTH LOCAL_USER_AUTH (some (1 :: List.replicate 15 200)))
      (demo_comm_of (lit "rods") (lit "otherZone")) demo_req).comm.clientUser.authInfo.authFlag =
        REMOTE_PRIV_USER_AUTH ∧
    (native_auth_agent_response
      (demo_cross_zone_env LOCAL_PRIV_USER_AUTH LOCAL_USER_AUTH (some (1 :: List.replicate 15 200)))
      (demo_comm_of (lit "rods") (lit "otherZone")) demo_req).comm.clientUser.authInfo.authFlag =
    (native_auth_agent_response
      (demo_cross_zone_env LOCAL_PRIV_USER_AUTH LOCAL_USER_AUTH (some (1 :: List.replicate 15 200)))
      (demo_comm_of (lit "rods") (lit "otherZone")) demo_req).comm.proxyUser.authInfo.authFlag :=
  ⟨by decide,
   (same_principal_auth_flags
      (demo_cross_zone_env LOCAL_PRIV_USER_AUTH LOCAL_USER_AUTH (some (1 :: List.replicate 15 200)))
      (demo_comm_of (lit "rods") (lit "otherZone")) demo_req demo_req (by decide) (by decide)).1⟩

/-- C7: when the servicing host is a remote catalog, a successful run stores into the
proxy authFlag the level the authentication check has returned for the proxy, remapped:
local-privileged-user to remote-privileged-user, local-user to remote-user, every other
level unchanged.  When the servicing host is no remote catalog the proxy authFlag is the
returned level. -/
theorem proxy_auth_flag_remap (E : Env) (comm : RsComm) (req resp : Json)
    (host : RodsServerHost) (zone_name : Bytes) (out : AuthCheckOut) (tr : List Event)
    (hauth : auth_phase E comm req = (Except.ok (host, zone_name, out), tr))
    (h : (native_auth_agent_response E comm req).result = Except.ok resp) :
    (host.rcatEnabled = E.REMOTE_ICAT →
      (out.privLevel = LOCAL_PRIV_USER_AUTH →
        (native_auth_agent_response E comm req).comm.proxyUser.authInfo.authFlag =
          REMOTE_PRIV_USER_AUTH) ∧
      (out.privLevel = LOCAL_USER_AUTH →
        (native_auth_agent_response E comm req).comm.proxyUser.authInfo.authFlag =
          REMOTE_USER_AUTH) ∧
      (out.privLevel ≠ LOCAL_PRIV_USER_AUTH → out.privLevel ≠ LOCAL_USER_AUTH →
        (native_auth_agent_response E comm req).comm.proxyUser.authInfo.authFlag =
          out.privLevel)) ∧
    (host.rcatEnabled ≠ E.REMOTE_ICAT →
      (native_auth_agent_response E comm req).comm.proxyUser.authInfo.authFlag = out.privLevel) := by
  obtain ⟨comm1, _, hp, _⟩ := agent_response_ok_flags E comm req resp host zone_name out tr hauth h
  rw [hp]
  constructor
  · intro hr
    rw [if_pos hr]
    refine ⟨?_, ?_, ?_⟩
    · intro hl; rw [hl]; rfl
    · intro hl; rw [hl]; rfl
    · intro h1 h2
      unfold remap_proxy
      rw [if_neg h1, if_neg h2]
  · intro hr
    rw [if_neg hr]

/-- C7 at an example: the servicing host is a remote catalog and the check returns a
privileged local proxy; the proxy authFlag ends as `REMOTE_PRIV_USER_AUTH`. -/
theorem proxy_auth_flag_remap_witness :
    (native_auth_agent_response
      (demo_cross_zone_env LOCAL_PRIV_USER_AUTH LOCAL_USER_AUTH (some (1 :: List.replicate 15 200)))
      demo_comm demo_req).comm.proxyUser.authInfo.authFlag = REMOTE_PRIV_USER_AUTH :=
  ((proxy_auth_flag_remap
      (demo_cross_zone_env LOCAL_PRIV_USER_AUTH LOCAL_USER_AUTH (some (1 :: List.replicate 15 200)))
      demo_comm demo_req demo_req { localFlag := 0, rcatEnabled := 2 } (lit "otherZone")
      { privLevel := LOCAL_PRIV_USER_AUTH, clientPrivLevel := LOCAL_USER_AUTH,
        serverResponse := some (1 :: List.replicate 15 200) }
      (auth_phase
        (demo_cross_zone_env LOCAL_PRIV_USER_AUTH LOCAL_USER_AUTH (some (1 :: List.replicate 15 200)))
        demo_comm demo_req).2
      (by decide) (by decide)).1 (by decide)).1 rfl

/-- C8 at its failing input.  The servicing host is a remote catalog, the proxy `rods`
acts for the client `alice` of the zone `otherZone`, which is not the local zone
`tempZone`, and the authentication check returns local-privileged-user for the proxy and
for the client.  The run succeeds; lines 325-327 store remote-privileged-user for the
proxy, and line 355 stores remote-user, not remote-privileged-user, for the client. -/
theorem client_remap_loses_rank :
    (native_auth_agent_response
      (demo_cross_zone_env LOCAL_PRIV_USER_AUTH LOCAL_PRIV_USER_AUTH (some (1 :: List.replicate 15 200)))
      (demo_comm_of (lit "alice") (lit "otherZone")) demo_req).result = Except.ok demo_req ∧
    (native_auth_agent_response
      (demo_cross_zone_env LOCAL_PRIV_USER_AUTH LOCAL_PRIV_USER_AUTH (some (1 :: List.replicate 15 200)))
      (demo_comm_of (lit "alice") (lit "otherZone")) demo_req).comm.proxyUser.authInfo.authFlag =
        REMOTE_PRIV_USER_AUTH ∧
    (native_auth_agent_response
      (demo_cross_zone_env LOCAL_PRIV_USER_AUTH LOCAL_PRIV_USER_AUTH (some (1 :: List.replicate 15 200)))
      (demo_comm_of (lit "alice") (lit "otherZone")) demo_req).comm.clientUser.authInfo.authFlag =
        REMOTE_USER_AUTH ∧
    remap_client false LOCAL_PRIV_USER_AUTH = REMOTE_USER_AUTH ∧
    remap_client true REMOTE_PRIV_USER_AUTH = LOCAL_PRIV_USER_AUTH := by
  decide

/-! ## A digest text that does not decode to 16 bytes: claim C9 -/

/-- C9: for every digest text whose base64 decoding does not yield exactly 16 bytes (a
text that is not well-formed base64 has no decoding at all), the step fails, no
authentication check is performed and the connection is left as it was; when the
required fields are there and the catalog connection has succeeded, the step fails with
the decoding error of line 229. -/
theorem bad_digest_fails_before_auth_check (E : Env) (comm : RsComm) (req : Json) (text : Bytes)
    (hd : req.get_string "digest" = some text)
    (hbad : (decode_groups text).map List.length ≠ some 16) :
    (∃ e, (native_auth_agent_response E comm req).result = Except.error e) ∧
    (native_auth_agent_response E comm req).comm = comm ∧
    (∀ ev ∈ (native_auth_agent_response E comm req).trace, ev.isAuthCheck = false) ∧
    (∀ zone_name, req.contains "zone_name" = true → req.contains "user_name" = true →
      req.get_string "zone_name" = some zone_name →
      ¬ (E.getAndConnRcatHostNoLogin comm (c_str zone_name)).1 < 0 →
      (native_auth_agent_response E comm req).result =
        Except.error AuthError.base64_decode_failed) := by
  obtain ⟨⟨e, he⟩, htr, hdec⟩ := auth_phase_bad_digest E comm req text hd hbad
  have hpair : auth_phase E comm req = (Except.error e, (auth_phase E comm req).2) :=
    Prod.ext he rfl
  rw [agent_response_of_auth_error E comm req e _ hpair]
  refine ⟨⟨e, rfl⟩, rfl, htr, ?_⟩
  intro zone_name h1 h2 h3 h4
  have h5 := hdec zone_name h1 h2 h3 h4
  rw [he] at h5
  simpa using h5

/-- C9 at examples: a valid digest text cut by one group of four characters decodes to
15 bytes, a text with a character outside the alphabet has no decoding, and an unpadded
text of 24 characters decodes to 18 bytes; the request with the first of them fails with
the decoding error and no authentication check is performed. -/
theorem bad_digest_fails_before_auth_check_witness :
    (decode_groups (lit "AQEBAQEBAQEBAQEBAQEB")).map List.length = some 15 ∧
    decode_groups (lit "AQEBAQEBAQEBAQEBAQEB*Q==") = none ∧
    (decode_groups (lit "AQEBAQEBAQEBAQEBAQEBAQEB")).map List.length = some 18 ∧
    (native_auth_agent_response (demo_local_env LOCAL_USER_AUTH LOCAL_USER_AUTH none) demo_comm
      (demo_req_of (lit "AQEBAQEBAQEBAQEBAQEB"))).result =
        Except.error AuthError.base64_decode_failed ∧
    (∀ ev ∈ (native_auth_agent_response (demo_local_env LOCAL_USER_AUTH LOCAL_USER_AUTH none)
      demo_comm (demo_req_of (lit "AQEBAQEBAQEBAQEBAQEB"))).trace, ev.isAuthCheck = false) :=
  have h := bad_digest_fails_before_auth_check (demo_local_env LOCAL_USER_AUTH LOCAL_USER_AUTH none)
    demo_comm (demo_req_of (lit "AQEBAQEBAQEBAQEBAQEB")) (lit "AQEBAQEBAQEBAQEBAQEB")
    (by decide) (by decide)
  ⟨by decide, by decide, by decide,
   h.2.2.2 (lit "otherZone") (by decide) (by decide) (by decide) (by decide), h.2.2.1⟩

/-! ## A zone without a server ID: claim C10 -/

/-- C10: a cross-zone run (the servicing host is not local, the authentication check has
succeeded, a server response that is not empty is provided) in which `getZoneServerId`
yields an empty server ID fails with REMOTE_SERVER_SID_NOT_DEFINED and leaves the
connection, hence its proxy authFlag, client authFlag and client zone, as it was. -/
theorem missing_zone_secret (E : Env) (comm : RsComm) (req : Json) (host : RodsServerHost)
    (zone_name : Bytes) (out : AuthCheckOut) (tr : List Event) (serverResponse : Bytes)
    (hauth : auth_phase E comm req = (Except.ok (host, zone_name, out), tr))
    (hhost : E.LOCAL_HOST ≠ host.localFlag)
    (hresp : out.serverResponse = some serverResponse)
    (hne : serverResponse.getD 0 0 ≠ 0)
    (hsid : (agent_serverId E zone_name).getD 0 0 = 0) :
    (native_auth_agent_response E comm req).result =
      Except.error AuthError.REMOTE_SERVER_SID_NOT_DEFINED ∧
    (native_auth_agent_response E comm req).comm.proxyUser.authInfo.authFlag =
      comm.proxyUser.authInfo.authFlag ∧
    (native_auth_agent_response E comm req).comm.clientUser.authInfo.authFlag =
      comm.clientUser.authInfo.authFlag ∧
    (native_auth_agent_response E comm req).comm.clientUser.rodsZone = comm.clientUser.rodsZone ∧
    (native_auth_agent_response E comm req).comm = comm := by
  have hcz : cross_zone_check E zone_name out =
      Except.error AuthError.REMOTE_SERVER_SID_NOT_DEFINED := by
    simp only [cross_zone_check, hresp]
    rw [if_neg hne, if_pos hsid]
  rw [agent_response_of_cross_zone_error E comm req host zone_name out tr _ hauth hhost hcz]
  exact ⟨rfl, rfl, rfl, rfl, rfl⟩

/-- C10 at an example: the peer sends a server response, and no server ID is defined
for the zone. -/
theorem missing_zone_secret_witness :
    (native_auth_agent_response
      (demo_env { localFlag := 0, rcatEnabled := 2 }
        (0, some { privLevel := LOCAL_USER_AUTH, clientPrivLevel := LOCAL_USER_AUTH,
                   serverResponse := some (lit "0123456789abcdef") })
        [] demo_hash none)
      demo_comm demo_req).result = Except.error AuthError.REMOTE_SERVER_SID_NOT_DEFINED :=
  (missing_zone_secret
    (demo_env { localFlag := 0, rcatEnabled := 2 }
      (0, some { privLevel := LOCAL_USER_AUTH, clientPrivLevel := LOCAL_USER_AUTH,
                 serverResponse := some (lit "0123456789abcdef") })
      [] demo_hash none)
    demo_comm demo_req { localFlag := 0, rcatEnabled := 2 } (lit "otherZone")
    { privLevel := LOCAL_USER_AUTH, clientPrivLevel := LOCAL_USER_AUTH,
      serverResponse := some (lit "0123456789abcdef") }
    (auth_phase
      (demo_env { localFlag := 0, rcatEnabled := 2 }
        (0, some { privLevel := LOCAL_USER_AUTH, clientPrivLevel := LOCAL_USER_AUTH,
                   serverResponse := some (lit "0123456789abcdef") })
        [] demo_hash none)
      demo_comm demo_req).2
    (lit "0123456789abcdef") (by decide) (by decide) rfl (by decide) (by decide)).1

/-! ## Lemmas on base64, on message fields and on the client step -/

theorem b64_value_char (v : Nat) (h : v < 64) : b64_value (b64_char v) = some v := by
  revert v
  decide

theorem b64_char_ne_pad (v : Nat) : b64_char v ≠ 61 := by
  unfold b64_char
  split
  · omega
  · split
    · omega
    · split
      · omega
      · split <;> omega

theorem encode_groups_ne_nil (d : Bytes) (h : d ≠ []) : encode_groups d ≠ [] := by
  match d, h with
  | [a], _ => simp [encode_groups]
  | [a, b], _ => simp [encode_groups]
  | a :: b :: c :: rest, _ => simp [encode_groups]

theorem decode_groups_cons (a b c d x y z w : Nat) (rest bytes : Bytes) (h : rest ≠ [])
    (ha : b64_value a = some x) (hb : b64_value b = some y) (hc : b64_value c = some z)
    (hd : b64_value d = some w) (hr : decode_groups rest = some bytes) :
    decode_groups (a :: b :: c :: d :: rest) =
      some ((x * 4 + y / 16) :: (y % 16 * 16 + z / 4) :: (z % 4 * 64 + w) :: bytes) := by
  cases rest with
  | nil => exact absurd rfl h
  | cons r rs =>
    rw [decode_groups]
    · simp only [ha, hb, hc, hd, hr]
    · intro hnil; cases hnil

theorem decode_groups_last3 (a b c d x y z w : Nat) (hc61 : c ≠ 61) (hd61 : d ≠ 61)
    (ha : b64_value a = some x) (hb : b64_value b = some y) (hc : b64_value c = some z)
    (hd : b64_value d = some w) :
    decode_groups [a, b, c, d] = some [x * 4 + y / 16, y % 16 * 16 + z / 4, z % 4 * 64 + w] := by
  rw [decode_groups]
  simp only [hc61, hd61, false_and, and_false, if_false, ha, hb, hc, hd]

theorem decode_groups_last2 (a b c x y z : Nat) (hc61 : c ≠ 61)
    (ha : b64_value a = some x) (hb : b64_value b = some y) (hc : b64_value c = some z) :
    decode_groups [a, b, c, 61] = some [x * 4 + y / 16, y % 16 * 16 + z / 4] := by
  rw [decode_groups]
  simp only [hc61, false_and, if_false, if_true, ha, hb, hc]

theorem decode_groups_last1 (a b x y : Nat)
    (ha : b64_value a = some x) (hb : b64_value b = some y) :
    decode_groups [a, b, 61, 61] = some [x * 4 + y / 16] := by
  rw [decode_groups]
  simp only [and_self, if_true, ha, hb]

/-- Decoding inverts encoding on every list of bytes. -/
theorem decode_encode_groups (d : Bytes) (h : ∀ b ∈ d, b < 256) :
    decode_groups (encode_groups d) = some d := by
  match d, h with
  | [], _ => rfl
  | [a], h =>
    have ha : a < 256 := h a (by simp)
    rw [encode_groups, decode_groups_last1 _ _ _ _ (b64_value_char _ (by omega))
      (b64_value_char _ (by omega))]
    congr 2
    omega
  | [a, b], h =>
    have ha : a < 256 := h a (by simp)
    have hb : b < 256 := h b (by simp)
    rw [encode_groups, decode_groups_last2 _ _ _ _ _ _ (b64_char_ne_pad _)
      (b64_value_char _ (by omega)) (b64_value_char _ (by omega)) (b64_value_char _ (by omega))]
    have h1 : a / 4 * 4 + (a % 4 * 16 + b / 16) / 16 = a := by omega
    have h2 : (a % 4 * 16 + b / 16) % 16 * 16 + b % 16 * 4 / 4 = b := by omega
    rw [h1, h2]
  | a :: b :: c :: rest, h =>
    have ha : a < 256 := h a (by simp)
    have hb : b < 256 := h b (by simp)
    have hc : c < 256 := h c (by simp)
    have hrest : ∀ x ∈ rest, x < 256 := fun x hx => h x (by simp [hx])
    have ih := decode_encode_groups rest hrest
    have h1 : a / 4 * 4 + (a % 4 * 16 + b / 16) / 16 = a := by omega
    have h2 : (a % 4 * 16 + b / 16) % 16 * 16 + (b % 16 * 4 + c / 64) / 4 = b := by omega
    have h3 : (b % 16 * 4 + c / 64) % 4 * 64 + c % 64 = c := by omega
    rw [encode_groups]
    by_cases hr : rest = []
    · subst hr
      rw [encode_groups, decode_groups_last3 _ _ _ _ _ _ _ _ (b64_char_ne_pad _) (b64_char_ne_pad _)
        (b64_value_char _ (by omega)) (b64_value_char _ (by omega)) (b64_value_char _ (by omega))
        (b64_value_char _ (by omega)), h1, h2, h3]
    · rw [decode_groups_cons _ _ _ _ _ _ _ _ _ _ (encode_groups_ne_nil rest hr)
        (b64_value_char _ (by omega)) (b64_value_char _ (by omega)) (b64_value_char _ (by omega))
        (b64_value_char _ (by omega)) ih, h1, h2, h3]

theorem encode_groups_length_16 (d : Bytes) (h : d.length = 16) : (encode_groups d).length = 24 := by
  match d, h with
  | [a0, a1, a2, a3, a4, a5, a6, a7, a8, a9, a10, a11, a12, a13, a14, a15], _ =>
    simp [encode_groups]
theorem contains_of_get_string (j : Json) (key : String) (s : Bytes)
    (h : j.get_string key = some s) : j.contains key = true := by
  unfold Json.get_string at h
  unfold Json.contains
  cases hk : j.at? key with
  | none => rw [hk] at h; cases h
  | some v => rfl

theorem find_map_set_self (j : Json) (key : String) (value : JsonValue)
    (h : (j.find? (fun kv => kv.1 == key)).isSome = true) :
    (j.map (fun kv => if kv.1 == key then (key, value) else kv)).find? (fun kv => kv.1 == key) =
      some (key, value) := by
  induction j with
  | nil => simp at h
  | cons kv j ih =>
    by_cases hk : kv.1 = key
    · simp [List.find?_cons, hk]
    · have hb : (kv.1 == key) = false := by simpa using hk
      simp only [List.find?_cons, hb] at h
      simp only [List.map_cons, List.find?_cons, hb, Bool.false_eq_true, if_false]
      exact ih h

theorem find_map_set_other (j : Json) (key other : String) (value : JsonValue) (h : other ≠ key) :
    ((j.map (fun kv => if kv.1 == key then (key, value) else kv)).find?
        (fun kv => kv.1 == other)).map (fun kv => kv.2) =
      (j.find? (fun kv => kv.1 == other)).map (fun kv => kv.2) := by
  induction j with
  | nil => rfl
  | cons kv j ih =>
    by_cases hk : kv.1 = key
    · have hne : (key == other) = false := by simpa using Ne.symm h
      have hne2 : (kv.1 == other) = false := by rw [hk]; exact hne
      have hkb : (kv.1 == key) = true := by simpa using hk
      simp only [List.map_cons, hkb, if_true, List.find?_cons, hne, hne2]
      exact ih
    · have hb : (kv.1 == key) = false := by simpa using hk
      simp only [List.map_cons, hb, List.find?_cons]
      by_cases ho : kv.1 = other
      · have hob : (kv.1 == other) = true := by simpa using ho
        simp [hob]
      · have hob : (kv.1 == other) = false := by simpa using ho
        simp only [hob, Bool.false_eq_true, if_false]
        exact ih

theorem at?_set_self (j : Json) (key : String) (value : JsonValue) :
    (j.set key value).at? key = some value := by
  unfold Json.set
  by_cases hc : j.contains key = true
  · rw [if_pos hc]
    unfold Json.at?
    unfold Json.contains Json.at? at hc
    rw [find_map_set_self j key value (by simpa using hc)]
    rfl
  · rw [if_neg hc]
    unfold Json.at?
    unfold Json.contains Json.at? at hc
    have hnone : j.find? (fun kv => kv.1 == key) = none := by
      cases hf : j.find? (fun kv => kv.1 == key) with
      | none => rfl
      | some v => rw [hf] at hc; simp at hc
    simp [List.find?_append, hnone]

theorem at?_set_other (j : Json) (key other : String) (value : JsonValue) (h : other ≠ key) :
    (j.set key value).at? other = j.at? other := by
  unfold Json.set
  by_cases hc : j.contains key = true
  · rw [if_pos hc]
    exact find_map_set_other j key other value h
  · rw [if_neg hc]
    unfold Json.at?
    have hne : (key == other) = false := by simpa using Ne.symm h
    cases hf : j.find? (fun kv => kv.1 == other) with
    | none => simp [List.find?_append, hf, hne]
    | some v => simp [List.find?_append, hf]

theorem get_string_set_self (j : Json) (key : String) (s : Bytes) :
    (j.set key (JsonValue.string s)).get_string key = some s := by
  unfold Json.get_string
  rw [at?_set_self]

theorem get_string_set_other (j : Json) (key other : String) (value : JsonValue) (h : other ≠ key) :
    (j.set key value).get_string other = j.get_string other := by
  unfold Json.get_string
  rw [at?_set_other j key other value h]

theorem mem_lt_of_getD (l : Bytes) (h : ∀ i, i < l.length → l.getD i 0 < 256) :
    ∀ b ∈ l, b < 256 := by
  intro b hb
  obtain ⟨i, hi, rfl⟩ := List.getElem_of_mem hb
  have := h i hi
  simpa [List.getD_eq_getElem?_getD, List.getElem?_eq_getElem hi] using this

theorem getD_lt_of_mem (l : Bytes) (h : ∀ b ∈ l, b < 256) (i : Nat) : l.getD i 0 < 256 := by
  by_cases hi : i < l.length
  · have := h l[i] (List.getElem_mem hi)
    simpa [List.getD_eq_getElem?_getD, List.getElem?_eq_getElem hi] using this
  · rw [getD_of_length_le l i (by omega)]
    omega

theorem store_hash_lt (hash : Bytes → Bytes) (input : Bytes) :
    ∀ b ∈ store_hash hash input, b < 256 := by
  intro b hb
  unfold store_hash writeAt at hb
  simp only [List.mem_append] at hb
  rcases hb with hb | hb | hb
  · simp at hb
  · have hb := List.mem_of_mem_take hb
    simp only [List.mem_map] at hb
    obtain ⟨a, _, rfl⟩ := hb
    omega
  · have hb := List.mem_of_mem_drop hb
    have : b = 0 := by
      unfold zeros at hb
      exact List.eq_of_mem_replicate hb
    omega

theorem scrub_lt (d : Bytes) (hlen : RESPONSE_LEN ≤ d.length) (h : ∀ b ∈ d, b < 256) :
    ∀ b ∈ scrub d, b < 256 := by
  apply mem_lt_of_getD
  intro i _
  rw [scrub_getD d hlen]
  have := getD_lt_of_mem d h i
  split
  · split
    · omega
    · exact this
  · exact this

/-- The 16 bytes of a scrubbed digest are bytes. -/
theorem digest_bytes (hash : Bytes → Bytes) (input : Bytes) :
    ((scrub (store_hash hash input)).take RESPONSE_LEN).length = RESPONSE_LEN ∧
    ∀ b ∈ (scrub (store_hash hash input)).take RESPONSE_LEN, b < 256 := by
  constructor
  · rw [List.length_take, scrub_length, store_hash_length]
    exact Nat.min_eq_left (by omega)
  · intro b hb
    exact scrub_lt _ (by rw [store_hash_length]; omega) (store_hash_lt hash input) b
      (List.mem_of_mem_take hb)

/-- The encoding of 16 bytes fits into the 32 bytes of the output array, and the decoding
of the text yields the 16 bytes. -/
theorem base64_round_trip (d : Bytes) (hlen : d.length = RESPONSE_LEN) (h : ∀ b ∈ d, b < 256) :
    base64_encode d (RESPONSE_LEN * 2) = Except.ok (encode_groups d) ∧
    base64_decode (encode_groups d) RESPONSE_LEN = Except.ok d := by
  constructor
  · unfold base64_encode
    rw [if_pos (by rw [encode_groups_length_16 d hlen]; decide)]
  · unfold base64_decode
    rw [decode_encode_groups d h]
    simp only [hlen, if_true]

/-- The client step on a request that has the required fields, as strings. -/
theorem establish_context_ok (E : ClientEnv) (req : Json) (request_result user_name : Bytes)
    (hz : req.contains "zone_name" = true)
    (hr : req.get_string "request_result" = some request_result)
    (hu : req.get_string "user_name" = some user_name) :
    native_auth_establish_context E req =
      (Except.ok ((req.set "digest" (JsonValue.string (encode_groups
          ((scrub (store_hash E.hash (client_hash_input E request_result user_name))).take
            RESPONSE_LEN)))).set next_operation AUTH_CLIENT_AUTH_RESPONSE),
        client_trace E request_result user_name) := by
  obtain ⟨hlen, hlt⟩ := digest_bytes E.hash (client_hash_input E request_result user_name)
  have henc := (base64_round_trip _ hlen hlt).1
  unfold native_auth_establish_context
  simp only [contains_of_get_string req _ _ hr, contains_of_get_string req _ _ hu, hz, hr, hu,
    henc, Bool.and_self, Bool.not_true, Bool.false_eq_true, if_false]

/-- The bytes the client hashes for the anonymous user. -/
theorem client_hash_input_anonymous (E : ClientEnv) (request_result : Bytes) :
    client_hash_input E request_result E.ANONYMOUS_USER =
      resize (cstr request_result) CHALLENGE_LEN ++ zeros MAX_PASSWORD_LEN := by
  have hX : (resize (cstr request_result) CHALLENGE_LEN).length = CHALLENGE_LEN :=
    resize_length _ _
  unfold client_hash_input client_md5_buf need_password
  simp only [if_true, Bool.false_eq_true, if_false, strncpy]
  rw [strncpy_c_str_resize, Nat.add_assoc, writeAt_zeros CHALLENGE_LEN (MAX_PASSWORD_LEN + 2) _ hX,
    List.set_append_right _ _ (by rw [hX]; omega)]
  have hz : (zeros (MAX_PASSWORD_LEN + 2)).set
      (CHALLENGE_LEN + 1 - (resize (cstr request_result) CHALLENGE_LEN).length) 0 =
      zeros (MAX_PASSWORD_LEN + 2) := by
    unfold zeros
    exact List.set_replicate_self
  rw [hz]
  generalize resize (cstr request_result) CHALLENGE_LEN = X at hX ⊢
  rw [← hX, List.take_append]
  congr 1

theorem client_trace_anonymous (E : ClientEnv) (request_result : Bytes) :
    client_trace E request_result E.ANONYMOUS_USER =
      [ClientEvent.setSessionSignatureClientside
        (resize (cstr request_result) CHALLENGE_LEN ++ zeros (MAX_PASSWORD_LEN + 2))] := by
  have hX : (resize (cstr request_result) CHALLENGE_LEN).length = CHALLENGE_LEN :=
    resize_length _ _
  unfold client_trace need_password
  simp only [if_true, Bool.false_eq_true, if_false, strncpy, List.append_nil]
  rw [strncpy_c_str_resize, Nat.add_assoc, writeAt_zeros CHALLENGE_LEN (MAX_PASSWORD_LEN + 2) _ hX]

/-! ## The anonymous user: claim C11 -/

/-- C11, as the code has it: for every request that has the required fields and whose
user_name is the anonymous user, and for every challenge, the step reads no stored
credential and issues no prompt, bytes 64..113 of the hashed buffer are all zero, and
the step succeeds with a digest field equal to the base64 encoding of the scrubbed hash
of the challenge, read as a C string (its bytes before the first zero byte) and cut to
64 bytes or filled up with zero bytes to 64 bytes, followed by 50 zero bytes.  For a
challenge without a zero byte this is the challenge itself, cut or filled up. -/
theorem anonymous_establish_context (E : ClientEnv) (req : Json) (request_result : Bytes)
    (hz : req.contains "zone_name" = true)
    (hr : req.get_string "request_result" = some request_result)
    (hu : req.get_string "user_name" = some E.ANONYMOUS_USER) :
    (∀ ev ∈ (native_auth_establish_context E req).2,
      ev ≠ ClientEvent.obfGetPw ∧ ev ≠ ClientEvent.prompt) ∧
    (client_hash_input E request_result E.ANONYMOUS_USER).length = 114 ∧
    (client_hash_input E request_result E.ANONYMOUS_USER).drop 64 = zeros 50 ∧
    client_hash_input E request_result E.ANONYMOUS_USER =
      resize (cstr request_result) 64 ++ zeros 50 ∧
    (∃ resp, (native_auth_establish_context E req).1 = Except.ok resp ∧
      resp.get_string "digest" = some (encode_groups
        ((scrub (store_hash E.hash (resize (cstr request_result) 64 ++ zeros 50))).take 16)) ∧
      ((∀ b ∈ request_result, b ≠ 0) →
        resp.get_string "digest" = some (encode_groups
          ((scrub (store_hash E.hash (resize request_result 64 ++ zeros 50))).take 16))) ∧
      resp.at? next_operation = some AUTH_CLIENT_AUTH_RESPONSE) := by
  have hin := client_hash_input_anonymous E request_result
  have h64 : CHALLENGE_LEN = 64 := rfl
  have h50 : MAX_PASSWORD_LEN = 50 := rfl
  have h16 : RESPONSE_LEN = 16 := rfl
  rw [h64, h50] at hin
  have hX : (resize (cstr request_result) 64).length = 64 := resize_length _ _
  have hok := establish_context_ok E req request_result E.ANONYMOUS_USER hz hr hu
  rw [hin, h16] at hok
  have hdig : ((req.set "digest" (JsonValue.string (encode_groups
      ((scrub (store_hash E.hash (resize (cstr request_result) 64 ++ zeros 50))).take 16)))).set
        next_operation AUTH_CLIENT_AUTH_RESPONSE).get_string "digest" =
      some (encode_groups
        ((scrub (store_hash E.hash (resize (cstr request_result) 64 ++ zeros 50))).take 16)) := by
    rw [get_string_set_other _ _ _ _ (by decide), get_string_set_self]
  refine ⟨?_, ?_, ?_, hin, ?_⟩
  · rw [hok, client_trace_anonymous]
    intro ev hev
    simp only [List.mem_singleton] at hev
    subst hev
    exact ⟨fun h => ClientEvent.noConfusion h, fun h => ClientEvent.noConfusion h⟩
  · rw [hin, List.length_append, hX, zeros_length]
  · rw [hin, List.drop_left' hX]
  · refine ⟨_, by rw [hok], hdig, ?_, at?_set_self _ _ _⟩
    intro hnz
    rw [hdig, cstr_eq_self _ hnz]

/-- C11 at an example: the anonymous user has received the challenge `abc`. -/
theorem anonymous_establish_context_witness :
    (native_auth_establish_context demo_client_env
      (demo_client_req (lit "anonymous") (lit "abc"))).2 =
        [ClientEvent.setSessionSignatureClientside (lit "abc" ++ zeros 113)] ∧
    (client_hash_input demo_client_env (lit "abc") (lit "anonymous")).drop 64 = zeros 50 :=
  ⟨by decide,
   (anonymous_establish_context demo_client_env (demo_client_req (lit "anonymous") (lit "abc"))
      (lit "abc") (by decide) (by decide) (by decide)).2.2.1⟩

/-- C11 as stated fails at a challenge with a zero byte before its end.  The anonymous
user receives the challenge `a`, zero byte, `b`; `strncpy` stops at the zero byte, and
the digest field of the returned message is the encoding of the scrubbed hash of `a`
followed by zero bytes, not of the challenge filled up with zero bytes to 64 bytes and
followed by 50 zero bytes. -/
theorem anonymous_digest_stops_at_zero_byte :
    (demo_client_req (lit "anonymous") [97, 0, 98]).get_string "user_name" =
      some demo_client_env.ANONYMOUS_USER ∧
    (∃ resp, (native_auth_establish_context demo_client_env
        (demo_client_req (lit "anonymous") [97, 0, 98])).1 = Except.ok resp ∧
      resp.get_string "digest" = some (encode_groups
        ((scrub (store_hash demo_client_env.hash (resize [97] 64 ++ zeros 50))).take 16)) ∧
      resp.get_string "digest" ≠ some (encode_groups
        ((scrub (store_hash demo_client_env.hash (resize [97, 0, 98] 64 ++ zeros 50))).take 16))) :=
  ⟨by decide,
   (demo_client_req (lit "anonymous") [97, 0, 98]).set "digest"
      (JsonValue.string (encode_groups
        ((scrub (store_hash demo_client_env.hash (resize [97] 64 ++ zeros 50))).take 16))) |>.set
      next_operation AUTH_CLIENT_AUTH_RESPONSE,
   by decide, by decide, by decide⟩

/-! ## The round trip of the digest: claim C12 -/

/-- C12: for every challenge and secret (every request that has the required fields, every
stored or prompted password), the base64 encoding of the 16 bytes of the scrubbed digest
into 32 bytes does not fail, the client step succeeds with the text as its digest field,
and the decoding of that text with 16 bytes as the expected size, as the server step
does it, succeeds and yields exactly the 16 bytes that were encoded. -/
theorem digest_round_trip (E : ClientEnv) (req : Json) (request_result user_name : Bytes)
    (hz : req.contains "zone_name" = true)
    (hr : req.get_string "request_result" = some request_result)
    (hu : req.get_string "user_name" = some user_name) :
    ((scrub (store_hash E.hash (client_hash_input E request_result user_name))).take 16).length
      = 16 ∧
    (∃ text, base64_encode
        ((scrub (store_hash E.hash (client_hash_input E request_result user_name))).take 16) 32
        = Except.ok text) ∧
    (∃ resp text, (native_auth_establish_context E req).1 = Except.ok resp ∧
      resp.get_string "digest" = some text ∧
      base64_decode text 16 = Except.ok
        ((scrub (store_hash E.hash (client_hash_input E request_result user_name))).take 16)) := by
  obtain ⟨hlen, hlt⟩ := digest_bytes E.hash (client_hash_input E request_result user_name)
  obtain ⟨henc, hdec⟩ := base64_round_trip _ hlen hlt
  have hok := establish_context_ok E req request_result user_name hz hr hu
  have h16 : RESPONSE_LEN = 16 := rfl
  rw [h16] at hlen henc hdec hok
  refine ⟨hlen, ⟨_, henc⟩, _, _, by rw [hok], ?_, hdec⟩
  rw [get_string_set_other _ _ _ _ (by decide), get_string_set_self]

/-- C12 at an example: the user `alice` has received the challenge `abc` and types the
password at the prompt; the digest text decodes to 16 bytes. -/
theorem digest_round_trip_witness :
    ∃ resp text, (native_auth_establish_context demo_client_env
        (demo_client_req (lit "alice") (lit "abc"))).1 = Except.ok resp ∧
      resp.get_string "digest" = some text ∧
      base64_decode text 16 = Except.ok
        ((scrub (store_hash demo_client_env.hash
          (client_hash_input demo_client_env (lit "abc") (lit "alice")))).take 16) :=
  (digest_round_trip demo_client_env (demo_client_req (lit "alice") (lit "abc")) (lit "abc")
    (lit "alice") (by decide) (by decide) (by decide)).2.2

end NativeAuth
